import Mathlib

/-!
# tdx-init: a verification development

A shallow embedding of the Go sources of `tdx-init`
(`pkg/disk/mounting.go`, `pkg/disk/find.go`, `pkg/tdxsetup/setup.go`,
`pkg/tdxsetup/keys.go`) together with the properties that hold of them.

Conventions of the embedding

* A Go `string` / `[]byte` is a list of bytes, `Bytes = List Nat`
  (every element of a real Go string is below 256).
* A Go `error` is a value of `GoError`; the `nil` error is `none`.
* Everything outside the process (external commands, the file system, the
  injected strategies) is reached through `Env`, whose answers may depend on
  the whole history of operations, and is recorded in `World.log`.
-/

namespace TdxInit

/-! ## Strings -/

/-- A Go string: a sequence of bytes. -/
abbrev Bytes := List Nat

/-- The bytes of an ASCII literal of the source. -/
def ascii (s : String) : Bytes := s.toList.map Char.toNat

/-- The function `strings.HasPrefix`. -/
def stringsHasPrefix (s pre : Bytes) : Bool := pre.isPrefixOf s

/-- The function `strings.Contains`: `sub` occurs in `s` as a contiguous run. -/
def stringsContains : Bytes → Bytes → Bool
  | [], sub => sub.isEmpty
  | c :: t, sub => stringsHasPrefix (c :: t) sub || stringsContains t sub

/-! ## Errors -/

/-- Go error values. `ext` is an error produced outside the program (by the
operating system, an external tool or an injected strategy), identified by a
code; `new` is `fmt.Errorf` without `%w`; `wrap` is `fmt.Errorf("msg: %w", e)`;
`join1`/`join2` are the results of `errors.Join` with one or two non-nil
arguments. -/
inductive GoError where
  | ext (code : Nat)
  | new (msg : String)
  | wrap (msg : String) (cause : GoError)
  | join1 (a : GoError)
  | join2 (a b : GoError)
  deriving DecidableEq, Repr

/-- The function `errors.Join(a, b)` for a pair of possibly-nil errors. -/
def errorsJoin : Option GoError → Option GoError → Option GoError
  | none, none => none
  | some a, none => some (GoError.join1 a)
  | none, some b => some (GoError.join1 b)
  | some a, some b => some (GoError.join2 a b)

/-- The call `fmt.Errorf(msg + "%w", e)`; with a nil operand nothing is wrapped. -/
def errorfW (msg : String) : Option GoError → GoError
  | some e => GoError.wrap msg e
  | none => GoError.new msg

/-- The error `target` is reachable from `e` through `Unwrap` (the tree walked
by `errors.Is`). -/
def GoError.contains (e target : GoError) : Bool :=
  e == target ||
    match e with
    | GoError.wrap _ c => c.contains target
    | GoError.join1 a => a.contains target
    | GoError.join2 a b => a.contains target || b.contains target
    | _ => false

/-! ## UTF-8 (package `unicode/utf8`) -/

/-- The rune `utf8.RuneError` (U+FFFD). -/
def RuneError : Nat := 0xFFFD

/-- The table `first` of package utf8 for a non-ASCII lead byte: the length of
the sequence and the accepted range of the second byte; `none` is the invalid
entry `xx`. -/
def utf8First (p0 : Nat) : Option (Nat × Nat × Nat) :=
  if p0 < 0xC2 then none
  else if p0 < 0xE0 then some (2, 0x80, 0xBF)
  else if p0 = 0xE0 then some (3, 0xA0, 0xBF)
  else if p0 = 0xED then some (3, 0x80, 0x9F)
  else if p0 < 0xF0 then some (3, 0x80, 0xBF)
  else if p0 = 0xF0 then some (4, 0x90, 0xBF)
  else if p0 < 0xF4 then some (4, 0x80, 0xBF)
  else if p0 = 0xF4 then some (4, 0x80, 0x8F)
  else none

/-- The function `utf8.DecodeRune`: the first rune of `p` and its width in
bytes; `(RuneError, 1)` for an invalid encoding, `(RuneError, 0)` for the empty
input. Masks and shifts are written as `%` and `*`. -/
def decodeRune : Bytes → Nat × Nat
  | [] => (RuneError, 0)
  | p0 :: rest =>
    if p0 < 0x80 then (p0, 1)
    else
      match utf8First p0 with
      | none => (RuneError, 1)
      | some (sz, lo, hi) =>
        if rest.length + 1 < sz then (RuneError, 1)
        else
          match rest with
          | [] => (RuneError, 1)
          | b1 :: r1 =>
            if b1 < lo ∨ hi < b1 then (RuneError, 1)
            else if sz ≤ 2 then ((p0 % 32) * 64 + b1 % 64, 2)
            else
              match r1 with
              | [] => (RuneError, 1)
              | b2 :: r2 =>
                if b2 < 0x80 ∨ 0xBF < b2 then (RuneError, 1)
                else if sz ≤ 3 then ((p0 % 16) * 4096 + (b1 % 64) * 64 + b2 % 64, 3)
                else
                  match r2 with
                  | [] => (RuneError, 1)
                  | b3 :: _ =>
                    if b3 < 0x80 ∨ 0xBF < b3 then (RuneError, 1)
                    else ((p0 % 8) * 262144 + (b1 % 64) * 4096 + (b2 % 64) * 64 + b3 % 64, 4)

/-- The function `utf8.EncodeRune` / `utf8.AppendRune`: the UTF-8 encoding of a
rune, surrogates and out-of-range values being encoded as `RuneError`. -/
def encodeRune (r : Nat) : Bytes :=
  if r ≤ 0x7F then [r]
  else if r ≤ 0x7FF then [0xC0 + r / 64, 0x80 + r % 64]
  else if r > 0x10FFFF ∨ (0xD800 ≤ r ∧ r ≤ 0xDFFF) then [0xEF, 0xBF, 0xBD]
  else if r ≤ 0xFFFF then [0xE0 + r / 4096, 0x80 + (r / 64) % 64, 0x80 + r % 64]
  else [0xF0 + r / 262144, 0x80 + (r / 4096) % 64, 0x80 + (r / 64) % 64, 0x80 + r % 64]

/-- Valid UTF-8: decoding never meets an invalid byte (`utf8.Valid`). -/
def utf8ValidFuel : Nat → Bytes → Bool
  | 0, s => s.isEmpty
  | _ + 1, [] => true
  | fuel + 1, b :: rest =>
    let d := decodeRune (b :: rest)
    if d.1 = RuneError ∧ d.2 = 1 then false
    else utf8ValidFuel fuel ((b :: rest).drop d.2)

/-- The function `utf8.Valid`. -/
def utf8Valid (s : Bytes) : Bool := utf8ValidFuel s.length s

/-! ## JSON encoding (package `encoding/json`, `Marshal`) -/

/-- The `type Token struct` of `pkg/disk/mounting.go`. A nil slice or map is
`none`; a map is an association list with distinct keys. The field `Type` is
named `TokenType` here. -/
structure Token where
  TokenType : Bytes
  Keyslots : Option (List Bytes)
  UserData : Option (List (Bytes × Bytes))
  deriving DecidableEq, Repr

/-- The zero value of `Token` (what `var token disk.Token` declares). -/
def Token.zero : Token := { TokenType := [], Keyslots := none, UserData := none }

/-- The map index expression `m[key]` with the comma-ok form. -/
def mapLookup (m : Option (List (Bytes × Bytes))) (key : Bytes) : Option Bytes :=
  match m with
  | none => none
  | some l => l.lookup key

/-- The assignment `m[key] = v` on a non-nil map. -/
def mapSet (l : List (Bytes × Bytes)) (key v : Bytes) : List (Bytes × Bytes) :=
  (key, v) :: l.filter (fun kv => kv.1 != key)

/-- The digit table `hex` of the encoder. -/
def hexDigit (n : Nat) : Nat := if n < 10 then 48 + n else 87 + n

/-- The table `htmlSafeSet`: the ASCII bytes the encoder copies unescaped. -/
def htmlSafe (b : Nat) : Bool :=
  decide (0x20 ≤ b) && b != 0x22 && b != 0x5C && b != 0x3C && b != 0x3E && b != 0x26

/-- The escape the encoder writes for an ASCII byte outside `htmlSafeSet`. -/
def escapeAscii (b : Nat) : Bytes :=
  if b = 0x5C ∨ b = 0x22 then [0x5C, b]
  else if b = 0x08 then [0x5C, 0x62]
  else if b = 0x0C then [0x5C, 0x66]
  else if b = 0x0A then [0x5C, 0x6E]
  else if b = 0x0D then [0x5C, 0x72]
  else if b = 0x09 then [0x5C, 0x74]
  else [0x5C, 0x75, 0x30, 0x30, hexDigit (b / 16), hexDigit (b % 16)]

/-- The loop of the encoder's `appendString` over the rest of the source
string; the fuel bounds the number of iterations by the length. For a byte that
does not start a valid encoding the encoder writes the three bytes of U+FFFD
(its legacy implementation wrote the six characters of the escape of U+FFFD in
their place, which decode to the same three bytes). -/
def appendStringLoop : Nat → Bytes → Bytes
  | 0, _ => []
  | _ + 1, [] => []
  | fuel + 1, b :: rest =>
    if b < 0x80 then
      (if htmlSafe b then [b] else escapeAscii b) ++ appendStringLoop fuel rest
    else
      let d := decodeRune (b :: rest)
      if d.1 = RuneError ∧ d.2 = 1 then
        [0xEF, 0xBF, 0xBD] ++ appendStringLoop fuel rest
      else if d.1 = 0x2028 ∨ d.1 = 0x2029 then
        (ascii "\\u202" ++ [hexDigit (d.1 % 16)]) ++ appendStringLoop fuel ((b :: rest).drop d.2)
      else
        (b :: rest).take d.2 ++ appendStringLoop fuel ((b :: rest).drop d.2)

/-- The encoder's `appendString` with HTML escaping on (the default of
`json.Marshal`): a quoted JSON string literal. -/
def appendString (src : Bytes) : Bytes :=
  [0x22] ++ appendStringLoop src.length src ++ [0x22]

/-- Bytewise order of strings (`strings.Compare a b < 0`). -/
def bytesLt : Bytes → Bytes → Bool
  | [], [] => false
  | [], _ :: _ => true
  | _ :: _, [] => false
  | a :: s, b :: t => decide (a < b) || (a == b && bytesLt s t)

/-- Insertion into a list of map entries sorted by key. -/
def insertByKey (kv : Bytes × Bytes) : List (Bytes × Bytes) → List (Bytes × Bytes)
  | [] => [kv]
  | x :: xs => if bytesLt x.1 kv.1 then x :: insertByKey kv xs else kv :: x :: xs

/-- The entries of a map in the order the encoder writes them (sorted keys). -/
def sortByKey (l : List (Bytes × Bytes)) : List (Bytes × Bytes) :=
  l.foldr insertByKey []

/-- Elements separated by commas. -/
def commaSep : List Bytes → Bytes
  | [] => []
  | [x] => x
  | x :: y :: rest => x ++ [0x2C] ++ commaSep (y :: rest)

/-- The encoding of a `[]string`. -/
def encodeStringSlice : Option (List Bytes) → Bytes
  | none => ascii "null"
  | some l => [0x5B] ++ commaSep (l.map appendString) ++ [0x5D]

/-- The encoding of a `map[string]string`. -/
def encodeStringMap : Option (List (Bytes × Bytes)) → Bytes
  | none => ascii "null"
  | some l =>
    [0x7B] ++ commaSep ((sortByKey l).map (fun kv => appendString kv.1 ++ [0x3A] ++ appendString kv.2))
      ++ [0x7D]

/-- The call `json.Marshal(token)` for a `Token`; it cannot fail for this type. -/
def jsonMarshalToken (t : Token) : Except GoError Bytes :=
  Except.ok
    ([0x7B] ++ appendString (ascii "type") ++ [0x3A] ++ appendString t.TokenType ++ [0x2C]
      ++ appendString (ascii "keyslots") ++ [0x3A] ++ encodeStringSlice t.Keyslots ++ [0x2C]
      ++ appendString (ascii "user_data") ++ [0x3A] ++ encodeStringMap t.UserData ++ [0x7D])

/-! ## JSON decoding (package `encoding/json`, `Unmarshal`) -/

/-- A parsed JSON value; string values and object keys are stored unquoted,
object members in source order. -/
inductive JValue where
  | null
  | bool (b : Bool)
  | number (raw : Bytes)
  | string (s : Bytes)
  | array (elems : List JValue)
  | object (members : List (Bytes × JValue))

/-- JSON insignificant whitespace (the scanner's `isSpace`). -/
def isJsonSpace (c : Nat) : Bool := c == 0x20 || c == 0x09 || c == 0x0D || c == 0x0A

/-- Skip leading whitespace. -/
def skipWs : Bytes → Bytes
  | [] => []
  | c :: t => if isJsonSpace c then skipWs t else c :: t

/-- The value of a hexadecimal digit (as accepted by `getu4`). -/
def hexVal (c : Nat) : Option Nat :=
  if 0x30 ≤ c ∧ c ≤ 0x39 then some (c - 0x30)
  else if 0x61 ≤ c ∧ c ≤ 0x66 then some (c - 0x61 + 10)
  else if 0x41 ≤ c ∧ c ≤ 0x46 then some (c - 0x41 + 10)
  else none

/-- Four hexadecimal digits at the head of the input. -/
def hex4 : Bytes → Option (Nat × Bytes)
  | a :: b :: c :: d :: rest =>
    match hexVal a, hexVal b, hexVal c, hexVal d with
    | some x, some y, some z, some w => some (x * 4096 + y * 256 + z * 16 + w, rest)
    | _, _, _, _ => none
  | _ => none

/-- The function `getu4`: the code unit of a `\uXXXX` escape at the head of the
input, if there is one. -/
def getu4 : Bytes → Option (Nat × Bytes)
  | 0x5C :: 0x75 :: rest => hex4 rest
  | _ => none

/-- The function `utf16.DecodeRune` on a surrogate pair; `RuneError` when the
pair is not a high surrogate followed by a low one. -/
def utf16DecodeRune (r1 r2 : Nat) : Nat :=
  if 0xD800 ≤ r1 ∧ r1 < 0xDC00 ∧ 0xDC00 ≤ r2 ∧ r2 < 0xE000 then
    (r1 - 0xD800) * 1024 + (r2 - 0xDC00) + 0x10000
  else RuneError

/-- The byte denoted by a one-letter escape of a JSON string. -/
def simpleEscape (e : Nat) : Option Nat :=
  if e = 0x22 ∨ e = 0x5C ∨ e = 0x2F then some e
  else if e = 0x62 then some 0x08
  else if e = 0x66 then some 0x0C
  else if e = 0x6E then some 0x0A
  else if e = 0x72 then some 0x0D
  else if e = 0x74 then some 0x09
  else none

/-- The body of a JSON string literal, after the opening quote: the scanner's
validation and `unquoteBytes` in one pass. Returns the unquoted bytes and the
input after the closing quote; `none` is a syntax error. Every iteration
consumes at least one byte, so a fuel of the input length is enough. -/
def parseStringBody : Nat → Bytes → Option (Bytes × Bytes)
  | 0, _ => none
  | _ + 1, [] => none
  | fuel + 1, c :: rest =>
    if c = 0x22 then some ([], rest)
    else if c = 0x5C then
      match rest with
      | [] => none
      | e :: rest2 =>
        if e = 0x75 then
          match hex4 rest2 with
          | none => none
          | some (rr, rest3) =>
            if 0xD800 ≤ rr ∧ rr < 0xE000 then
              match getu4 rest3 with
              | some (rr1, rest4) =>
                if utf16DecodeRune rr rr1 ≠ RuneError then
                  (parseStringBody fuel rest4).map
                    (fun p => (encodeRune (utf16DecodeRune rr rr1) ++ p.1, p.2))
                else
                  (parseStringBody fuel rest3).map (fun p => (encodeRune RuneError ++ p.1, p.2))
              | none =>
                (parseStringBody fuel rest3).map (fun p => (encodeRune RuneError ++ p.1, p.2))
            else
              (parseStringBody fuel rest3).map (fun p => (encodeRune rr ++ p.1, p.2))
        else
          match simpleEscape e with
          | none => none
          | some b => (parseStringBody fuel rest2).map (fun p => (b :: p.1, p.2))
    else if c < 0x20 then none
    else if c < 0x80 then (parseStringBody fuel rest).map (fun p => (c :: p.1, p.2))
    else
      let d := decodeRune (c :: rest)
      (parseStringBody fuel ((c :: rest).drop d.2)).map (fun p => (encodeRune d.1 ++ p.1, p.2))

/-- A JSON string literal body with the fuel its length provides. -/
def parseString (s : Bytes) : Option (Bytes × Bytes) := parseStringBody s.length s

/-- ASCII decimal digit. -/
def isDigit (c : Nat) : Bool := decide (0x30 ≤ c) && decide (c ≤ 0x39)

/-- The longest prefix of digits and the rest. -/
def spanDigits : Bytes → Bytes × Bytes
  | [] => ([], [])
  | c :: t => if isDigit c then ((spanDigits t).1.cons c, (spanDigits t).2) else ([], c :: t)

/-- The optional exponent part of a JSON number. -/
def parseExponent (s : Bytes) : Option (Bytes × Bytes) :=
  match s with
  | e :: t =>
    if e = 0x65 ∨ e = 0x45 then
      let signed := match t with
        | sg :: t2 => if sg = 0x2B ∨ sg = 0x2D then ([sg], t2) else ([], t)
        | [] => ([], t)
      let ds := spanDigits signed.2
      if ds.1.isEmpty then none else some (e :: signed.1 ++ ds.1, ds.2)
    else some ([], s)
  | [] => some ([], s)

/-- The optional fraction part of a JSON number. -/
def parseFraction (s : Bytes) : Option (Bytes × Bytes) :=
  match s with
  | 0x2E :: t =>
    let ds := spanDigits t
    if ds.1.isEmpty then none else some (0x2E :: ds.1, ds.2)
  | _ => some ([], s)

/-- The unsigned part of a JSON number: `0` or a non-zero digit followed by
digits, then the optional fraction and exponent. -/
def parseUnsigned (s : Bytes) : Option (Bytes × Bytes) :=
  match s with
  | d :: t =>
    if d = 0x30 then
      match parseFraction t with
      | none => none
      | some (fr, r1) =>
        match parseExponent r1 with
        | none => none
        | some (ex, r2) => some (d :: fr ++ ex, r2)
    else if isDigit d then
      let ds := spanDigits t
      match parseFraction ds.2 with
      | none => none
      | some (fr, r1) =>
        match parseExponent r1 with
        | none => none
        | some (ex, r2) => some (d :: ds.1 ++ fr ++ ex, r2)
    else none
  | [] => none

/-- A JSON number at the head of the input. -/
def parseNumber (s : Bytes) : Option (Bytes × Bytes) :=
  match s with
  | 0x2D :: t => (parseUnsigned t).map (fun p => (0x2D :: p.1, p.2))
  | _ => parseUnsigned s

/-- The scanner's `maxNestingDepth`. -/
def maxNestingDepth : Nat := 10000

mutual
/-- A JSON value at the head of the input (no leading whitespace); `depth` is
the number of enclosing arrays and objects. -/
def parseValue : Nat → Nat → Bytes → Option (JValue × Bytes)
  | 0, _, _ => none
  | _ + 1, _, [] => none
  | fuel + 1, depth, c :: rest =>
    if c = 0x7B then
      if maxNestingDepth ≤ depth then none
      else
        match skipWs rest with
        | 0x7D :: rest2 => some (JValue.object [], rest2)
        | s2 => (parseMembers fuel (depth + 1) s2).map (fun p => (JValue.object p.1, p.2))
    else if c = 0x5B then
      if maxNestingDepth ≤ depth then none
      else
        match skipWs rest with
        | 0x5D :: rest2 => some (JValue.array [], rest2)
        | s2 => (parseElements fuel (depth + 1) s2).map (fun p => (JValue.array p.1, p.2))
    else if c = 0x22 then
      (parseString rest).map (fun p => (JValue.string p.1, p.2))
    else if c = 0x2D ∨ isDigit c then
      (parseNumber (c :: rest)).map (fun p => (JValue.number p.1, p.2))
    else if stringsHasPrefix (c :: rest) (ascii "true") then
      some (JValue.bool true, (c :: rest).drop 4)
    else if stringsHasPrefix (c :: rest) (ascii "false") then
      some (JValue.bool false, (c :: rest).drop 5)
    else if stringsHasPrefix (c :: rest) (ascii "null") then
      some (JValue.null, (c :: rest).drop 4)
    else none
/-- The members of an object after `{` and whitespace, up to and including the
closing brace. -/
def parseMembers : Nat → Nat → Bytes → Option (List (Bytes × JValue) × Bytes)
  | 0, _, _ => none
  | fuel + 1, depth, s =>
    match s with
    | 0x22 :: rest =>
      match parseString rest with
      | none => none
      | some (key, r1) =>
        match skipWs r1 with
        | 0x3A :: r2 =>
          match parseValue fuel depth (skipWs r2) with
          | none => none
          | some (v, r3) =>
            match skipWs r3 with
            | 0x2C :: r4 =>
              (parseMembers fuel depth (skipWs r4)).map (fun p => ((key, v) :: p.1, p.2))
            | 0x7D :: r4 => some ([(key, v)], r4)
            | _ => none
        | _ => none
    | _ => none
/-- The elements of an array after `[` and whitespace, up to and including the
closing bracket. -/
def parseElements : Nat → Nat → Bytes → Option (List JValue × Bytes)
  | 0, _, _ => none
  | fuel + 1, depth, s =>
    match parseValue fuel depth s with
    | none => none
    | some (v, r1) =>
      match skipWs r1 with
      | 0x2C :: r2 => (parseElements fuel depth (skipWs r2)).map (fun p => (v :: p.1, p.2))
      | 0x5D :: r2 => some ([v], r2)
      | _ => none
end

/-- The function `checkValid` followed by the parse: the input must be exactly
one JSON value surrounded by optional whitespace. Every call of the parser
consumes at least one byte before it recurses, so the fuel suffices. -/
def parseJSON (data : Bytes) : Option JValue :=
  match parseValue (data.length + 1) 0 (skipWs data) with
  | some (v, rest) => if (skipWs rest).isEmpty then some v else none
  | none => none

/-- The rune `foldRune` maps a rune to, as far as the comparison with an ASCII
name can tell: the Kelvin sign folds to `K`, the long s to `S`, and no other
non-ASCII rune folds to an ASCII one. -/
def foldRune (r : Nat) : Nat :=
  if r = 0x212A then 0x4B else if r = 0x17F then 0x53 else r

/-- The loop of `appendFoldedName`. -/
def foldNameLoop : Nat → Bytes → Bytes
  | 0, _ => []
  | _ + 1, [] => []
  | fuel + 1, c :: rest =>
    if c < 0x80 then
      (if 0x61 ≤ c ∧ c ≤ 0x7A then c - 0x20 else c) :: foldNameLoop fuel rest
    else
      let d := decodeRune (c :: rest)
      encodeRune (foldRune d.1) ++ foldNameLoop fuel ((c :: rest).drop d.2)

/-- The function `foldName`: the case-folded form of an object key, by which
the decoder finds the struct field. -/
def foldName (s : Bytes) : Bytes := foldNameLoop s.length s

/-- The fields of `Token`. -/
inductive TokenField where
  | type
  | keyslots
  | userData
  deriving DecidableEq, Repr

/-- The struct field an object key selects (exact or case-folded match of the
`json:"..."` names), if any. -/
def lookupField (key : Bytes) : Option TokenField :=
  if foldName key = ascii "TYPE" then some TokenField.type
  else if foldName key = ascii "KEYSLOTS" then some TokenField.keyslots
  else if foldName key = ascii "USER_DATA" then some TokenField.userData
  else none

/-- The error `*json.SyntaxError`. -/
def jsonSyntaxError : GoError := GoError.new "json: syntax error"

/-- The error `*json.UnmarshalTypeError`. -/
def jsonTypeError : GoError := GoError.new "json: cannot unmarshal value into Go value"

/-- Decoding the elements of a JSON array into a `[]string`: a string is
stored, `null` leaves the element as it is, the empty string in a fresh slice,
anything else is a type error. (What `null` leaves in a slice that an earlier
`keyslots` member of the same object filled is not modelled; nothing reads the
field.) -/
def decodeStrings : List JValue → Except GoError (List Bytes)
  | [] => Except.ok []
  | v :: vs =>
    match v with
    | JValue.string s => (decodeStrings vs).map (fun l => s :: l)
    | JValue.null => (decodeStrings vs).map (fun l => [] :: l)
    | _ => Except.error jsonTypeError

/-- Decoding the members of a JSON object into a `map[string]string`, on top
of the entries already there. -/
def decodeMap (m : List (Bytes × Bytes)) : List (Bytes × JValue) → Except GoError (List (Bytes × Bytes))
  | [] => Except.ok m
  | (k, v) :: rest =>
    match v with
    | JValue.string s => decodeMap (mapSet m k s) rest
    | JValue.null => decodeMap (mapSet m k []) rest
    | _ => Except.error jsonTypeError

/-- Storing a JSON value into the field `Type` (a `string`): `null` leaves it
alone. -/
def storeType (t : Token) (v : JValue) : Except GoError Token :=
  match v with
  | JValue.string s => Except.ok { t with TokenType := s }
  | JValue.null => Except.ok t
  | _ => Except.error jsonTypeError

/-- Storing a JSON value into the field `Keyslots` (a `[]string`): `null` sets
it to nil. -/
def storeKeyslots (t : Token) (v : JValue) : Except GoError Token :=
  match v with
  | JValue.null => Except.ok { t with Keyslots := none }
  | JValue.array elems => (decodeStrings elems).map (fun l => { t with Keyslots := some l })
  | _ => Except.error jsonTypeError

/-- Storing a JSON value into the field `UserData` (a `map[string]string`):
`null` sets it to nil, an object adds its members to the map. -/
def storeUserData (t : Token) (v : JValue) : Except GoError Token :=
  match v with
  | JValue.null => Except.ok { t with UserData := none }
  | JValue.object ms =>
    (decodeMap (t.UserData.getD []) ms).map (fun m => { t with UserData := some m })
  | _ => Except.error jsonTypeError

/-- Storing one object member into the struct; an unknown key is skipped. -/
def storeField (t : Token) (key : Bytes) (v : JValue) : Except GoError Token :=
  match lookupField key with
  | none => Except.ok t
  | some TokenField.type => storeType t v
  | some TokenField.keyslots => storeKeyslots t v
  | some TokenField.userData => storeUserData t v

/-- Storing the members of the top-level object in order. -/
def storeMembers (t : Token) : List (Bytes × JValue) → Except GoError Token
  | [] => Except.ok t
  | (k, v) :: rest =>
    match storeField t k v with
    | Except.error e => Except.error e
    | Except.ok t2 => storeMembers t2 rest

/-- The call `json.Unmarshal(data, &token)` on a `Token` holding `t0`: the
decoded token, or the error the call returns. -/
def jsonUnmarshalToken (data : Bytes) (t0 : Token) : Except GoError Token :=
  match parseJSON data with
  | none => Except.error jsonSyntaxError
  | some JValue.null => Except.ok t0
  | some (JValue.object ms) => storeMembers t0 ms
  | some _ => Except.error jsonTypeError

/-! ## The world outside the process -/

/-- Flags of `os.OpenFile`. -/
inductive OpenFlag where
  | O_WRONLY
  | O_CREATE
  | O_APPEND
  | O_TRUNC
  deriving DecidableEq, Repr

/-- The operations through which the program reaches the outside world, with
their arguments. `exec` is `exec.Command(argv...)` run with the given standard
input; `findDisk`, `waitForKey` and `waitForPassphrase` are the calls on the
three injected strategies of `TdxSetupManager`. -/
inductive Op where
  | exec (argv : List Bytes) (stdin : Option Bytes)
  | readFile (path : Bytes)
  | stat (path : Bytes)
  | mkdirAll (path : Bytes) (perm : Nat)
  | chown (path : Bytes) (uid gid : Nat)
  | openFile (path : Bytes) (flags : List OpenFlag) (perm : Nat)
  | writeString (path : Bytes) (data : Bytes)
  | closeFile (path : Bytes)
  | writeFile (path : Bytes) (data : Bytes) (perm : Nat)
  | findDisk
  | waitForKey
  | waitForPassphrase
  deriving DecidableEq, Repr

/-- The contents of the regular files, by path. -/
abbrev Files := Bytes → Option Bytes

/-- The behaviour of everything outside the process. Each answer may depend on
the operations performed so far. `fault` says whether an operation fails and
with which error; `output` is what a successful external operation returns
(the standard output of a command, the value a strategy produces); `effect` is
what an external operation does to the files (a mount changes `/proc/mounts`);
`joinPath` is `filepath.Join` on two elements. -/
structure Env where
  fault : List Op → Op → Option GoError
  output : List Op → Op → Bytes
  effect : List Op → Op → Files → Files
  joinPath : Bytes → Bytes → Bytes

/-- The state of the outside world as the program sees it: the files and the
chronological log of the operations performed. -/
structure World where
  files : Files
  log : List Op

/-- The error of a missing file (`ENOENT`). -/
def errNotExist : GoError := GoError.ext 2

/-- An operation on something the program does not model (a command, a
strategy): the environment decides the result and the effect on the files. -/
def external (env : Env) (op : Op) (w : World) : Except GoError Bytes × World :=
  (match env.fault w.log op with
    | some e => Except.error e
    | none => Except.ok (env.output w.log op),
   { files := env.effect w.log op w.files, log := w.log ++ [op] })

/-- The error part of a result, as Go's `err`. -/
def errOf {α : Type} : Except GoError α → Option GoError
  | Except.error e => some e
  | Except.ok _ => none

/-- The call `cmd.Run()` of a command with the given arguments and input. -/
def execRun (env : Env) (argv : List Bytes) (stdin : Option Bytes) (w : World) :
    Option GoError × World :=
  (errOf (external env (Op.exec argv stdin) w).1, (external env (Op.exec argv stdin) w).2)

/-- The call `cmd.Output()`. -/
def execOutput (env : Env) (argv : List Bytes) (w : World) : Except GoError Bytes × World :=
  external env (Op.exec argv none) w

/-- The call `os.ReadFile`. -/
def osReadFile (env : Env) (path : Bytes) (w : World) : Except GoError Bytes × World :=
  (match env.fault w.log (Op.readFile path) with
    | some e => Except.error e
    | none =>
      match w.files path with
      | none => Except.error errNotExist
      | some d => Except.ok d,
   { w with log := w.log ++ [Op.readFile path] })

/-- The call `os.Stat`, of which only the error is used. -/
def osStat (env : Env) (path : Bytes) (w : World) : Option GoError × World :=
  (match env.fault w.log (Op.stat path) with
    | some e => some e
    | none =>
      match w.files path with
      | none => some errNotExist
      | some _ => none,
   { w with log := w.log ++ [Op.stat path] })

/-- The call `os.MkdirAll`. -/
def osMkdirAll (env : Env) (path : Bytes) (perm : Nat) (w : World) : Option GoError × World :=
  (env.fault w.log (Op.mkdirAll path perm), { w with log := w.log ++ [Op.mkdirAll path perm] })

/-- The call `os.Chown`. -/
def osChown (env : Env) (path : Bytes) (uid gid : Nat) (w : World) : Option GoError × World :=
  (env.fault w.log (Op.chown path uid gid), { w with log := w.log ++ [Op.chown path uid gid] })

/-- An open file: its path, the offset of the next write, and whether it was
opened with `O_APPEND`. -/
structure File where
  path : Bytes
  offset : Nat
  append : Bool

/-- The call `os.OpenFile`. Without `O_CREATE` a missing file is an error;
with it the file is created empty; `O_TRUNC` empties it. The offset starts at 0. -/
def osOpenFile (env : Env) (path : Bytes) (flags : List OpenFlag) (perm : Nat) (w : World) :
    Except GoError File × World :=
  let w1 : World := { w with log := w.log ++ [Op.openFile path flags perm] }
  match env.fault w.log (Op.openFile path flags perm) with
  | some e => (Except.error e, w1)
  | none =>
    match w.files path with
    | none =>
      if OpenFlag.O_CREATE ∈ flags then
        (Except.ok { path := path, offset := 0, append := decide (OpenFlag.O_APPEND ∈ flags) },
         { w1 with files := fun p => if p = path then some [] else w.files p })
      else (Except.error errNotExist, w1)
    | some _ =>
      (Except.ok { path := path, offset := 0, append := decide (OpenFlag.O_APPEND ∈ flags) },
       if OpenFlag.O_TRUNC ∈ flags then
         { w1 with files := fun p => if p = path then some [] else w.files p }
       else w1)

/-- Writing `data` into `old` at offset `off`: the bytes there are replaced,
the file grows when the data reaches past its end. -/
def writeAt (old : Bytes) (off : Nat) (data : Bytes) : Bytes :=
  old.take off ++ data ++ old.drop (off + data.length)

/-- The call `f.WriteString(data)`: at the end of the file when it was opened
with `O_APPEND`, at the current offset otherwise. -/
def fileWriteString (env : Env) (f : File) (data : Bytes) (w : World) :
    Option GoError × World :=
  let w1 : World := { w with log := w.log ++ [Op.writeString f.path data] }
  match env.fault w.log (Op.writeString f.path data) with
  | some e => (some e, w1)
  | none =>
    let old := (w.files f.path).getD []
    let new := if f.append then old ++ data else writeAt old f.offset data
    (none, { w1 with files := fun p => if p = f.path then some new else w.files p })

/-- The call `f.Close()`. -/
def fileClose (f : File) (w : World) : World :=
  { w with log := w.log ++ [Op.closeFile f.path] }

/-- The call `os.WriteFile`: the file is created or truncated and holds exactly
`data` afterwards. -/
def osWriteFile (env : Env) (path : Bytes) (data : Bytes) (perm : Nat) (w : World) :
    Option GoError × World :=
  let w1 : World := { w with log := w.log ++ [Op.writeFile path data perm] }
  match env.fault w.log (Op.writeFile path data perm) with
  | some e => (some e, w1)
  | none => (none, { w1 with files := fun p => if p = path then some data else w.files p })

/-! ## Package `disk`, file `pkg/disk/mounting.go`

Logging and printing (`log.Println`, `fmt.Println`) are left out. -/

/-- The function `CheckMounted`. -/
def CheckMounted (env : Env) (mountPoint : Bytes) (w : World) : Bool × World :=
  let r := osReadFile env (ascii "/proc/mounts") w
  match r.1 with
  | Except.error _ => (false, r.2)
  | Except.ok data => (stringsContains data (ascii " " ++ mountPoint ++ ascii " "), r.2)

/-- The function `CleanupMount`. -/
def CleanupMount (env : Env) (mountPoint mapperName : Bytes) (w : World) :
    Option GoError × World :=
  let r1 := execRun env [ascii "umount", mountPoint] none w
  match r1.1 with
  | some err => (some (GoError.wrap "error unmounting filesystem: " err), r1.2)
  | none =>
    let r2 := execRun env [ascii "cryptsetup", ascii "close", mapperName] none r1.2
    match r2.1 with
    | some err => (some (GoError.wrap "error closing LUKS device: " err), r2.2)
    | none => (none, r2.2)

/-- The token literal of `SetupNewDisk`:
`Token{Type: "user", Keyslots: []string{}, UserData: map[string]string{"metadata": string(key)}}`. -/
def metadataToken (key : Bytes) : Token :=
  { TokenType := ascii "user"
    Keyslots := some []
    UserData := some [(ascii "metadata", key)] }

/-- The function `SetupNewDisk`. -/
def SetupNewDisk (env : Env)
    (keyFile devicePath passphrase mapperName mapperDevice mountPoint : Bytes) (w : World) :
    Option GoError × World :=
  let r1 := execRun env
    [ascii "cryptsetup", ascii "luksFormat", ascii "--type", ascii "luks2", ascii "-q", devicePath]
    (some passphrase) w
  match r1.1 with
  | some err => (some (GoError.wrap "error formatting disk: " err), r1.2)
  | none =>
    let r2 := execRun env [ascii "cryptsetup", ascii "open", devicePath, mapperName]
      (some passphrase) r1.2
    match r2.1 with
    | some err => (some (GoError.wrap "error opening LUKS device: " err), r2.2)
    | none =>
      let r3 := execRun env [ascii "mkfs.ext4", mapperDevice] none r2.2
      match r3.1 with
      | some err =>
        let c := execRun env [ascii "cryptsetup", ascii "close", mapperName] none r3.2
        (some (GoError.wrap "error creating filesystem: " err), c.2)
      | none =>
        let r4 := osMkdirAll env mountPoint 0o755 r3.2
        let r5 := execRun env [ascii "mount", mapperDevice, mountPoint] none r4.2
        match r5.1 with
        | some err =>
          let c := execRun env [ascii "cryptsetup", ascii "close", mapperName] none r5.2
          (some (GoError.wrap "error mounting filesystem: " err), c.2)
        | none =>
          let r6 := osReadFile env keyFile r5.2
          match r6.1 with
          | Except.error err =>
            let c := CleanupMount env mountPoint mapperName r6.2
            (some (errorfW "error reading SSH key file: " (errorsJoin (some err) c.1)), c.2)
          | Except.ok key =>
            let token := metadataToken key
            match jsonMarshalToken token with
            | Except.error err =>
              let c := CleanupMount env mountPoint mapperName r6.2
              (some (errorfW "error marshaling token JSON: " (errorsJoin (some err) c.1)), c.2)
            | Except.ok tokenJSON =>
              let r7 := execRun env
                [ascii "cryptsetup", ascii "token", ascii "import", ascii "--token-id", ascii "1",
                  devicePath]
                (some tokenJSON) r6.2
              match r7.1 with
              | some err =>
                let c := CleanupMount env mountPoint mapperName r7.2
                (some (errorfW "error importing token to LUKS header: "
                  (errorsJoin (some err) c.1)), c.2)
              | none => (none, r7.2)

/-- The function `MountExistingDisk`. -/
def MountExistingDisk (env : Env)
    (_keyFile devicePath passphrase mapperName mapperDevice mountPoint : Bytes) (w : World) :
    Option GoError × World :=
  let r1 := execRun env [ascii "cryptsetup", ascii "open", devicePath, mapperName]
    (some passphrase) w
  match r1.1 with
  | some err => (some (GoError.wrap "error opening LUKS device: " err), r1.2)
  | none =>
    let r2 := osMkdirAll env mountPoint 0o755 r1.2
    let r3 := execRun env [ascii "mount", mapperDevice, mountPoint] none r2.2
    match r3.1 with
    | some err =>
      let c := execRun env [ascii "cryptsetup", ascii "close", mapperName] none r3.2
      match c.1 with
      | some cerr => (some (GoError.wrap "error closing LUKS device: " cerr), c.2)
      | none => (some (GoError.wrap "error mounting filesystem: " err), c.2)
    | none => (none, r3.2)

/-- The function `SetPassphrase`. The results of `SetupNewDisk` and
`MountExistingDisk` are not assigned: the calls are statements. -/
def SetPassphrase (env : Env)
    (devicePath keyFile mapperName mapperDevice mountPoint passphrase : Bytes) (w : World) :
    Option GoError × World :=
  let r1 := CheckMounted env mountPoint w
  if r1.1 then (some (GoError.new "encrypted disk already setup"), r1.2)
  else
    let r2 := osStat env keyFile r1.2
    match r2.1 with
    | some _ => (some (GoError.new "SSH key not set. Provide public key via HTTP first."), r2.2)
    | none =>
      let r3 := execRun env [ascii "cryptsetup", ascii "isLuks", devicePath] none r2.2
      let isNewSetup := r3.1.isSome
      if isNewSetup then
        let r4 := SetupNewDisk env keyFile devicePath passphrase mapperName mapperDevice
          mountPoint r3.2
        (none, r4.2)
      else
        let r4 := MountExistingDisk env keyFile devicePath passphrase mapperName mapperDevice
          mountPoint r3.2
        (none, r4.2)

/-! ## Package `tdxsetup`, file `pkg/tdxsetup/setup.go` -/

/-- The `type TdxSetupManagerOptions struct`. -/
structure TdxSetupManagerOptions where
  SSHDir : Bytes
  KeyFile : Bytes
  MountPoint : Bytes
  MapperName : Bytes
  MapperDevice : Bytes

/-- The function `DefaultTdxSetupManagerOptions`. -/
def DefaultTdxSetupManagerOptions : TdxSetupManagerOptions :=
  { SSHDir := ascii "/root/.ssh"
    KeyFile := ascii "/etc/root_key"
    MountPoint := ascii "/persistent"
    MapperName := ascii "cryptdisk"
    MapperDevice := ascii "/dev/mapper/cryptdisk" }

/-- The method `tryFindKey`. -/
def tryFindKey (env : Env) (devicePath : Bytes) (w : World) : Except GoError Bytes × World :=
  let r1 := execRun env [ascii "cryptsetup", ascii "isLuks", devicePath] none w
  if r1.1 = none then
    let r2 := execOutput env
      [ascii "cryptsetup", ascii "token", ascii "export", ascii "--token-id", ascii "1", devicePath]
      r1.2
    match r2.1 with
    | Except.error err => (Except.error (GoError.wrap "failed to export LUKS token: " err), r2.2)
    | Except.ok output =>
      match jsonUnmarshalToken output Token.zero with
      | Except.error err => (Except.error (GoError.wrap "failed to parse token JSON: " err), r2.2)
      | Except.ok token =>
        match mapLookup token.UserData (ascii "metadata") with
        | none => (Except.error (GoError.new "no metadata found in token"), r2.2)
        | some keyData => (Except.ok keyData, r2.2)
  else
    let r2 := external env Op.waitForKey r1.2
    match r2.1 with
    | Except.error err => (Except.error (GoError.wrap "failed to wait for key: " err), r2.2)
    | Except.ok key => (Except.ok key, r2.2)

/-- The line `writeKey` writes to `authorized_keys` for a key. -/
def authorizedKeysLine (key : Bytes) : Bytes :=
  ascii "no-port-forwarding,no-agent-forwarding,no-X11-forwarding ssh-ed25519 " ++ key ++ ascii "\n"

/-- The method `writeKey`. The deferred `f.Close()` runs on every return after
the file was opened. -/
def writeKey (env : Env) (options : TdxSetupManagerOptions) (key : Bytes) (w : World) :
    Option GoError × World :=
  let r1 := osMkdirAll env options.SSHDir 0o700 w
  let r2 := osChown env options.SSHDir 1000 1000 r1.2
  let authKeysFile := env.joinPath options.SSHDir (ascii "authorized_keys")
  let r3 := osOpenFile env authKeysFile [OpenFlag.O_CREATE, OpenFlag.O_WRONLY] 0o600 r2.2
  match r3.1 with
  | Except.error err => (some (GoError.wrap "error opening authorized_keys: " err), r3.2)
  | Except.ok f =>
    let r4 := fileWriteString env f (authorizedKeysLine key) r3.2
    match r4.1 with
    | some err => (some (GoError.wrap "error writing to authorized_keys: " err), fileClose f r4.2)
    | none =>
      let r5 := osWriteFile env options.KeyFile key 0o600 r4.2
      match r5.1 with
      | some err => (some (GoError.wrap "error writing key file: " err), fileClose f r5.2)
      | none => (none, fileClose f r5.2)

/-- The method `Setup`. -/
def Setup (env : Env) (options : TdxSetupManagerOptions) (w : World) : Option GoError × World :=
  let r1 := external env Op.findDisk w
  match r1.1 with
  | Except.error err => (some (GoError.wrap "failed to find disk: " err), r1.2)
  | Except.ok devicePath =>
    let r2 := tryFindKey env devicePath r1.2
    match r2.1 with
    | Except.error err => (some (GoError.wrap "failed to find key: " err), r2.2)
    | Except.ok key =>
      let r3 := writeKey env options key r2.2
      match r3.1 with
      | some err => (some (GoError.wrap "failed to write key: " err), r3.2)
      | none =>
        let r4 := external env Op.waitForPassphrase r3.2
        match r4.1 with
        | Except.error err => (some (GoError.wrap "failed to wait for passphrase: " err), r4.2)
        | Except.ok passphrase =>
          let r5 := SetPassphrase env devicePath options.KeyFile options.MapperName
            options.MapperDevice options.MountPoint passphrase r4.2
          match r5.1 with
          | some err => (some (GoError.wrap "failed to set passphrase: " err), r5.2)
          | none => (none, r5.2)

/-! ## Package `tdxsetup`, file `pkg/tdxsetup/keys.go` -/

/-- The character class `[A-Za-z0-9+/]` of the key pattern. -/
def inKeyClass (c : Nat) : Bool :=
  (decide (0x41 ≤ c) && decide (c ≤ 0x5A)) || (decide (0x61 ≤ c) && decide (c ≤ 0x7A))
    || (decide (0x30 ≤ c) && decide (c ≤ 0x39)) || c == 0x2B || c == 0x2F

/-- Matching `n` repetitions of the class at the head of the input: the rest of
the input when they are there. A byte of a multi-byte or invalid rune is never
in the class, so matching bytes is matching runes. -/
def matchClassRepeat : Nat → Bytes → Option Bytes
  | 0, s => some s
  | _ + 1, [] => none
  | n + 1, c :: t => if inKeyClass c then matchClassRepeat n t else none

/-- The call `regexp.MatchString` with the pattern `^[A-Za-z0-9+/]{68}$`: from
the start of the text, 68 repetitions of the class, then the end of the text
(without the multi-line flag `$` matches only there). -/
def matchKeyPattern (key : Bytes) : Bool :=
  match matchClassRepeat 68 key with
  | some rest => rest.isEmpty
  | none => false

/-- What the handler sees of a request: the method and the result of
`io.ReadAll(r.Body)`. -/
structure Request where
  method : Bytes
  body : Except GoError Bytes

/-- What the handler does, in order: `w.WriteHeader`, `fmt.Fprint(w, ...)`, and
the send `keyReceivedChan <- key`. -/
inductive HandlerAction where
  | writeHeader (status : Nat)
  | write (text : String)
  | send (key : Bytes)
  deriving DecidableEq, Repr

/-- The constant `http.StatusOK`. -/
def StatusOK : Nat := 200
/-- The constant `http.StatusBadRequest`. -/
def StatusBadRequest : Nat := 400
/-- The constant `http.StatusMethodNotAllowed`. -/
def StatusMethodNotAllowed : Nat := 405

/-- The handler function of the server in `WaitForKey`, as the sequence of its
actions when the send finds its receiver. -/
def handler (r : Request) : List HandlerAction :=
  if r.method ≠ ascii "POST" then
    [HandlerAction.writeHeader StatusMethodNotAllowed,
     HandlerAction.write "Only POST method is allowed"]
  else
    match r.body with
    | Except.error _ =>
      [HandlerAction.writeHeader StatusBadRequest, HandlerAction.write "Error reading request: "]
    | Except.ok body =>
      let key := body
      let matched := matchKeyPattern key
      if !matched then
        [HandlerAction.writeHeader StatusBadRequest,
         HandlerAction.write
           "Invalid key format, expected base64-encoded OpenSSH ed25519 public key"]
      else
        [HandlerAction.send key, HandlerAction.writeHeader StatusOK,
         HandlerAction.write "Key received and stored successfully"]

/-- The status code of the response: the first `WriteHeader`. -/
def responseStatus : List HandlerAction → Option Nat
  | [] => none
  | HandlerAction.writeHeader st :: _ => some st
  | _ :: rest => responseStatus rest

/-- The keys the handler hands to the waiting caller. -/
def handedOff : List HandlerAction → List Bytes
  | [] => []
  | HandlerAction.send k :: rest => k :: handedOff rest
  | _ :: rest => handedOff rest

/-- The case of the `select` statement of `WaitForKey` that fires. -/
inductive SelectCase where
  | ctxDone
  | serverErr (err : GoError)
  | keyReceived (key : Bytes)
  deriving DecidableEq, Repr

/-- The calls `WaitForKey` makes on its `http.Server`. -/
inductive ServerCall where
  | listenAndServe
  | shutdown
  deriving DecidableEq, Repr

/-- The method `WebServerKeyInitializer.WaitForKey` from the `select` on:
`fired` is the case that fires, `ctxErr` the value of `ctx.Err()`, and
`shutdownResult` what `server.Shutdown` returns when it is called. The result
is the returned pair and the calls made on the server, in order. -/
def WaitForKey (fired : SelectCase) (ctxErr : GoError) (shutdownResult : Option GoError) :
    (Bytes × Option GoError) × List ServerCall :=
  match fired with
  | SelectCase.ctxDone =>
    match shutdownResult with
    | some err =>
      (([], some (GoError.wrap "server shutdown error: " err)),
       [ServerCall.listenAndServe, ServerCall.shutdown])
    | none => (([], some ctxErr), [ServerCall.listenAndServe, ServerCall.shutdown])
  | SelectCase.serverErr err =>
    (([], some (GoError.wrap "server error: " err)), [ServerCall.listenAndServe])
  | SelectCase.keyReceived key =>
    match shutdownResult with
    | some err =>
      (([], some (GoError.wrap "server shutdown error: " err)),
       [ServerCall.listenAndServe, ServerCall.shutdown])
    | none => ((key, none), [ServerCall.listenAndServe, ServerCall.shutdown])

/-! ## Package `disk`, file `pkg/disk/find.go` -/

/-- The function `unicode.IsSpace`. -/
def isSpaceRune (r : Nat) : Bool :=
  r == 0x09 || r == 0x0A || r == 0x0B || r == 0x0C || r == 0x0D || r == 0x20 || r == 0x85
    || r == 0xA0 || r == 0x1680 || (decide (0x2000 ≤ r) && decide (r ≤ 0x200A)) || r == 0x2028
    || r == 0x2029 || r == 0x202F || r == 0x205F || r == 0x3000

/-- The runes of a string with the bytes of each (what `range s` yields); an
invalid byte is `RuneError` of width 1. -/
def runesFuel : Nat → Bytes → List (Nat × Bytes)
  | 0, _ => []
  | _ + 1, [] => []
  | fuel + 1, b :: rest =>
    let d := decodeRune (b :: rest)
    (d.1, (b :: rest).take d.2) :: runesFuel fuel ((b :: rest).drop d.2)

/-- The runes of a string; every rune takes at least one byte. -/
def runes (s : Bytes) : List (Nat × Bytes) := runesFuel s.length s

/-- The bytes of a sequence of runes. -/
def runeBytes (rs : List (Nat × Bytes)) : Bytes := (rs.map (fun r => r.2)).flatten

/-- The function `strings.TrimSpace`: leading and trailing white space removed. -/
def stringsTrimSpace (s : Bytes) : Bytes :=
  runeBytes
    (((runes s).dropWhile (fun r => isSpaceRune r.1)).reverse.dropWhile
      (fun r => isSpaceRune r.1)).reverse

/-- The fields among the remaining runes, `cur` being the field under way. -/
def fieldsFrom : List (Nat × Bytes) → Bytes → List Bytes
  | [], cur => if cur.isEmpty then [] else [cur]
  | r :: rest, cur =>
    if isSpaceRune r.1 then
      if cur.isEmpty then fieldsFrom rest [] else cur :: fieldsFrom rest []
    else fieldsFrom rest (cur ++ r.2)

/-- The function `strings.Fields`: the maximal runs without white space. -/
def stringsFields (s : Bytes) : List Bytes := fieldsFrom (runes s) []

/-- The function `strings.ContainsAny(s, chars)` for ASCII `chars`. -/
def stringsContainsAny (s chars : Bytes) : Bool := s.any (fun b => chars.contains b)

/-- The value of a string of decimal digits, `none` when it is empty or holds
another byte. -/
def parseDigits (s : Bytes) : Option Nat :=
  if s.isEmpty then none
  else s.foldl (fun acc c => acc.bind (fun n => if isDigit c then some (n * 10 + (c - 0x30)) else none))
    (some 0)

/-- The call `strconv.ParseInt(s, 10, 64)`: an optional sign and decimal
digits, in the range of `int64`; `none` is an error. -/
def parseInt64 (s : Bytes) : Option Int :=
  match s with
  | [] => none
  | c :: t =>
    if c = 0x2B then
      match parseDigits t with
      | some n => if n < 2 ^ 63 then some (n : Int) else none
      | none => none
    else if c = 0x2D then
      match parseDigits t with
      | some n => if n ≤ 2 ^ 63 then some (-(n : Int)) else none
      | none => none
    else
      match parseDigits (c :: t) with
      | some n => if n < 2 ^ 63 then some (n : Int) else none
      | none => none

/-- The value of an `int64` expression: the mathematical result wrapped to 64
bits, two's complement. -/
def wrapInt64 (x : Int) : Int := (x + 2 ^ 63) % 2 ^ 64 - 2 ^ 63

/-- The input split at the newlines. -/
def splitLines : Bytes → List Bytes
  | [] => [[]]
  | c :: t =>
    if c = 0x0A then [] :: splitLines t
    else
      match splitLines t with
      | l :: ls => (c :: l) :: ls
      | [] => [[c]]

/-- The function `dropCR` of `bufio`. -/
def dropCR (l : Bytes) : Bytes :=
  if l.getLast? = some 0x0D then l.dropLast else l

/-- The constant `bufio.MaxScanTokenSize`. -/
def MaxScanTokenSize : Nat := 64 * 1024

/-- The error `bufio.ErrTooLong`. -/
def ErrTooLong : GoError := GoError.new "bufio.Scanner: token too long"

/-- The lines a `bufio.Scanner` delivers from the segments between newlines,
and the value of `scanner.Err()` afterwards. A segment that does not fit the
buffer stops the scan with `ErrTooLong`; an empty last segment is no line. -/
def scanSegments : List Bytes → List Bytes × Option GoError
  | [] => ([], none)
  | [l] =>
    if MaxScanTokenSize ≤ l.length then ([], some ErrTooLong)
    else if l.isEmpty then ([], none) else ([dropCR l], none)
  | l :: l2 :: rest =>
    if MaxScanTokenSize ≤ l.length then ([], some ErrTooLong)
    else ((scanSegments (l2 :: rest)).1.cons (dropCR l), (scanSegments (l2 :: rest)).2)

/-- One iteration of the loop of `FindLargestDisk` on a line, from the state
`(largestDevice, largestSize)`. -/
def scanStep (st : Bytes × Int) (text : Bytes) : Bytes × Int :=
  let line := stringsTrimSpace text
  if stringsHasPrefix line (ascii "major") ∨ line = [] then st
  else
    let fields := stringsFields line
    if fields.length < 4 then st
    else
      let deviceName := fields.getD 3 []
      let hasSCSI := stringsHasPrefix deviceName (ascii "sd")
      let hasSdNumber :=
        stringsContainsAny (deviceName.drop (deviceName.length - 1)) (ascii "0123456789")
      if !hasSCSI ∨ hasSdNumber then st
      else
        match parseInt64 (fields.getD 2 []) with
        | none => st
        | some sizeBlocks =>
          let sizeBytes := wrapInt64 (sizeBlocks * 1024)
          if sizeBytes > st.2 then (ascii "/dev/" ++ deviceName, sizeBytes) else st

/-- The function `FindLargestDisk`; `file` is the result of opening and reading
`/proc/partitions`. -/
def FindLargestDisk (file : Except GoError Bytes) : Except GoError Bytes :=
  match file with
  | Except.error err => Except.error err
  | Except.ok content =>
    let scanned := scanSegments (splitLines content)
    let st := scanned.1.foldl scanStep (([] : Bytes), (0 : Int))
    match scanned.2 with
    | some err => Except.error err
    | none =>
      if st.1 = [] then Except.error (GoError.new "no SCSI disk found")
      else Except.ok st.1

/-! ## Concrete environments and inputs -/

deriving instance DecidableEq for Except

/-- An entry of the mount table, as `/proc/mounts` prints it: six fields
separated by single spaces. -/
structure MountEntry where
  device : Bytes
  mountPoint : Bytes
  fsType : Bytes
  options : Bytes
  dump : Bytes
  pass : Bytes

/-- The line of `/proc/mounts` for an entry. -/
def MountEntry.line (e : MountEntry) : Bytes :=
  e.device ++ ascii " " ++ e.mountPoint ++ ascii " " ++ e.fsType ++ ascii " " ++ e.options
    ++ ascii " " ++ e.dump ++ ascii " " ++ e.pass ++ ascii "\n"

/-- The contents of `/proc/mounts` for a mount table. -/
def renderMounts (table : List MountEntry) : Bytes := (table.map MountEntry.line).flatten

/-- An environment whose answers do not depend on the history and whose
commands leave the files alone. -/
def constEnv (fault : Op → Option GoError) (output : Op → Bytes) : Env :=
  { fault := fun _ op => fault op
    output := fun _ op => output op
    effect := fun _ _ fs => fs
    joinPath := fun d n => d ++ ascii "/" ++ n }

/-- A file store with a mount table, a key file and an `authorized_keys` file. -/
def sampleFiles (mounts keyFile key authKeysFile authKeys : Bytes) : Files :=
  fun p =>
    if p = ascii "/proc/mounts" then some mounts
    else if p = keyFile then some key
    else if p = authKeysFile then some authKeys
    else none

/-- The commands whose first two arguments are `cryptsetup` and one of the
given sub-commands, or whose first argument is one of the given programs, fail
with the paired code; everything else succeeds with empty output. -/
def failingCommands (subs : List (Bytes × Nat)) (progs : List (Bytes × Nat)) : Env :=
  constEnv
    (fun op =>
      match op with
      | Op.exec (prog :: sub :: _) _ =>
        if prog = ascii "cryptsetup" then (subs.lookup sub).map GoError.ext
        else (progs.lookup prog).map GoError.ext
      | _ => none)
    (fun _ => [])

/-- A machine at boot: only the root file system is mounted, the key file
`/etc/root_key` holds `key`, and `authorized_keys` holds `authKeys`. -/
def bootWorld (key authKeys : Bytes) : World :=
  { files := sampleFiles (ascii "rootfs / rootfs rw 0 0\n") (ascii "/etc/root_key") key
      (ascii "/root/.ssh/authorized_keys") authKeys
    log := [] }

/-! ## The commands of `mounting.go` and `setup.go`, by name -/

/-- The command `cryptsetup isLuks <device>`. -/
def opIsLuks (devicePath : Bytes) : Op :=
  Op.exec [ascii "cryptsetup", ascii "isLuks", devicePath] none

/-- The command `cryptsetup luksFormat --type luks2 -q <device>`, fed the passphrase. -/
def opFormat (devicePath passphrase : Bytes) : Op :=
  Op.exec
    [ascii "cryptsetup", ascii "luksFormat", ascii "--type", ascii "luks2", ascii "-q", devicePath]
    (some passphrase)

/-- The command `cryptsetup open <device> <mapper>`, fed the passphrase. -/
def opOpen (devicePath mapperName passphrase : Bytes) : Op :=
  Op.exec [ascii "cryptsetup", ascii "open", devicePath, mapperName] (some passphrase)

/-- The command `mkfs.ext4 <mapper device>`. -/
def opMkfs (mapperDevice : Bytes) : Op := Op.exec [ascii "mkfs.ext4", mapperDevice] none

/-- The command `mount <mapper device> <mount point>`. -/
def opMount (mapperDevice mountPoint : Bytes) : Op :=
  Op.exec [ascii "mount", mapperDevice, mountPoint] none

/-- The command `cryptsetup close <mapper>`. -/
def opClose (mapperName : Bytes) : Op :=
  Op.exec [ascii "cryptsetup", ascii "close", mapperName] none

/-- The command `umount <mount point>`. -/
def opUmount (mountPoint : Bytes) : Op := Op.exec [ascii "umount", mountPoint] none

/-- The command `cryptsetup token import --token-id 1 <device>`, fed the token. -/
def opTokenImport (devicePath tokenJSON : Bytes) : Op :=
  Op.exec
    [ascii "cryptsetup", ascii "token", ascii "import", ascii "--token-id", ascii "1", devicePath]
    (some tokenJSON)

/-- The command `cryptsetup token export --token-id 1 <device>`. -/
def opTokenExport (devicePath : Bytes) : Op :=
  Op.exec
    [ascii "cryptsetup", ascii "token", ascii "export", ascii "--token-id", ascii "1", devicePath]
    none

/-- The world in which `SetupNewDisk` reads the key file: after the format,
unlock, mkfs, mkdir and mount steps. -/
def worldMounted (env : Env) (devicePath passphrase mapperName mapperDevice mountPoint : Bytes)
    (w : World) : World :=
  (external env (opMount mapperDevice mountPoint)
    (osMkdirAll env mountPoint 0o755
      (external env (opMkfs mapperDevice)
        (external env (opOpen devicePath mapperName passphrase)
          (external env (opFormat devicePath passphrase) w).2).2).2).2).2

/-- The call `SetupNewDisk` with the default options on the device `/dev/sdb`
and the passphrase `secret`. -/
def SetupNewDiskDefault (env : Env) (w : World) : Option GoError × World :=
  SetupNewDisk env (ascii "/etc/root_key") (ascii "/dev/sdb") (ascii "secret") (ascii "cryptdisk")
    (ascii "/dev/mapper/cryptdisk") (ascii "/persistent") w

/-- The log of `w2` is the log of `w1` followed by operations that all
satisfy `P`. -/
def LogExtends (P : Op → Bool) (w1 w2 : World) : Prop :=
  ∃ ext, w2.log = w1.log ++ ext ∧ ∀ op ∈ ext, P op = true

/-- A key as the listener accepts it: 68 characters of the base64 alphabet. -/
def sampleKey : Bytes := ascii "AAAAC3NzaC1lZDI1NTE5AAAAIpTyGJMuHbEL31IeL2HPcHyGcFRl1SPnXNYvMIHa/2o7"

/-- Another such key. -/
def otherKey : Bytes := ascii "AAAAC3NzaC1lZDI1NTE5AAAAI6umfXfKm/r5kJP1VrT+1FJors/6ILi8IHn5kxsC7tVO"

/-- The environment in which nothing fails and every command prints nothing. -/
def quietEnv : Env := constEnv (fun _ => none) (fun _ => [])

/-- A machine whose disk `/dev/sdb` already carries a header: nothing fails,
the disk strategy finds `/dev/sdb`, the token export prints `tokenJSON`, and the
passphrase strategy yields `secret`. -/
def resumeEnv (tokenJSON : Bytes) : Env :=
  constEnv (fun _ => none)
    (fun op =>
      match op with
      | Op.findDisk => ascii "/dev/sdb"
      | Op.waitForPassphrase => ascii "secret"
      | Op.exec (_ :: sub :: act :: _) _ =>
        if sub = ascii "token" ∧ act = ascii "export" then tokenJSON else []
      | _ => [])

/-- The token of `sampleKey` as `cryptsetup token export` prints it back. -/
def sampleTokenJSON : Bytes :=
  ascii "\x7b\"type\":\"user\",\"keyslots\":[],\"user_data\":\x7b\"metadata\":\"" ++ sampleKey
    ++ ascii "\"\x7d\x7d"

/-- The alphabet of a key, character by character: `A`-`Z`, `a`-`z`, `0`-`9`,
`+` and `/`. -/
def keyAlphabet : Bytes :=
  ascii "ABCDEFGHIJKLMNOPQRSTUVWXYZabcdefghijklmnopqrstuvwxyz0123456789+/"

/-- A well-formed key: exactly 68 characters, each one of the alphabet. -/
def WellFormedKey (body : Bytes) : Prop := body.length = 68 ∧ ∀ c ∈ body, c ∈ keyAlphabet

/-- A whole-disk SCSI name: it starts with `sd` and does not end in a digit. -/
def isWholeDiskName (name : Bytes) : Bool :=
  name.take 2 == ascii "sd" && !(match name.getLast? with
    | some d => isDigit d
    | none => false)

/-- The record a line of the partition table holds, if it is one of a whole
SCSI disk: the device name (fourth field) and the block count (third field).
Header lines, blank lines, lines of fewer than four fields, other names and
block counts that are not 64-bit decimal integers give none. -/
def candidateOf (text : Bytes) : Option (Bytes × Int) :=
  let line := stringsTrimSpace text
  if stringsHasPrefix line (ascii "major") ∨ line = [] then none
  else
    let fields := stringsFields line
    if fields.length < 4 then none
    else if isWholeDiskName (fields.getD 3 []) then
      (parseInt64 (fields.getD 2 [])).map (fun blocks => (fields.getD 3 [], blocks))
    else none

/-- The whole-disk SCSI records of a partition table, in scan order. -/
def candidates (content : Bytes) : List (Bytes × Int) :=
  (scanSegments (splitLines content)).1.filterMap candidateOf

/-- The partition table of the example: `sda` with 1000 blocks, `sdb` with
2000 blocks and the partition `sda1` with 2000 blocks. -/
def samplePartitions : Bytes :=
  ascii "major minor  #blocks  name\n\n   8        0       1000 sda\n   8       16       2000 sdb\n   8        1       2000 sda1\n"

/-- A partition table whose first disk reports 2^53 blocks of 1024 bytes. -/
def hugePartitions : Bytes :=
  ascii "   8        0 9007199254740992 sda\n   8       16       2000 sdb\n"

/-- The state of the loop of `FindLargestDisk` after a whole-disk record. -/
def selectLarger (st : Bytes × Int) (c : Bytes × Int) : Bytes × Int :=
  if wrapInt64 (c.2 * 1024) > st.2 then (ascii "/dev/" ++ c.1, wrapInt64 (c.2 * 1024)) else st

/-- The loop state `st` after the records `done`: nothing is selected and no
record has a positive block count, or the selected device is the earliest
record with the greatest block count. -/
def Selected (done : List (Bytes × Int)) (st : Bytes × Int) : Prop :=
  (st = ([], 0) ∧ ∀ c ∈ done, c.2 ≤ 0)
  ∨ ∃ pre name blocks post, done = pre ++ (name, blocks) :: post
      ∧ st = (ascii "/dev/" ++ name, blocks * 1024) ∧ 0 < blocks
      ∧ (∀ c ∈ pre, c.2 < blocks) ∧ (∀ c ∈ post, c.2 ≤ blocks)

/-- A candidate line of the partition table: a record (not the header, not
blank, at least four fields) whose device name starts with `sd` and does not
end in a digit, whatever its block count field holds. -/
def isCandidateLine (text : Bytes) : Bool :=
  let line := stringsTrimSpace text
  if stringsHasPrefix line (ascii "major") ∨ line = [] then false
  else
    let fields := stringsFields line
    if fields.length < 4 then false else isWholeDiskName (fields.getD 3 [])

/-- The lines the scanner delivers from a partition table. -/
def partitionLines (content : Bytes) : List Bytes := (scanSegments (splitLines content)).1

/-- A partition table whose only disk `sda` reports no blocks. -/
def emptyDiskPartitions : Bytes :=
  ascii "major minor  #blocks  name\n\n   8        0          0 sda\n"

/-- A field of a mount table entry as `/proc/mounts` prints it holds no space
and no line feed: the kernel writes these bytes as octal escapes. -/
def fieldClean (s : Bytes) : Prop := 0x20 ∉ s ∧ 0x0A ∉ s

instance fieldCleanDecidable (s : Bytes) : Decidable (fieldClean s) :=
  inferInstanceAs (Decidable (0x20 ∉ s ∧ 0x0A ∉ s))

/-- Every field of the entry is free of spaces and line feeds. -/
def MountEntry.WellFormed (e : MountEntry) : Prop :=
  fieldClean e.device ∧ fieldClean e.mountPoint ∧ fieldClean e.fsType ∧ fieldClean e.options
    ∧ fieldClean e.dump ∧ fieldClean e.pass

instance wellFormedDecidable (e : MountEntry) : Decidable e.WellFormed :=
  inferInstanceAs (Decidable (fieldClean e.device ∧ fieldClean e.mountPoint ∧ fieldClean e.fsType
    ∧ fieldClean e.options ∧ fieldClean e.dump ∧ fieldClean e.pass))

/-- A mount table with the root file system and the encrypted disk. -/
def diskMounts : List MountEntry :=
  [{ device := ascii "/dev/sda1", mountPoint := ascii "/", fsType := ascii "ext4",
     options := ascii "rw,relatime", dump := ascii "0", pass := ascii "1" },
   { device := ascii "/dev/mapper/cryptdisk", mountPoint := ascii "/persistent",
     fsType := ascii "ext4", options := ascii "rw,relatime", dump := ascii "0",
     pass := ascii "2" }]

/-- A machine whose `/proc/mounts` shows the given table. -/
def mountsWorld (table : List MountEntry) : World :=
  { files := sampleFiles (renderMounts table) (ascii "/etc/root_key") (ascii "AAAA")
      (ascii "/root/.ssh/authorized_keys") []
    log := [] }

theorem stringsContains_iff (s sub : Bytes) : stringsContains s sub = true ↔ sub <:+: s := by
  induction s with
  | nil =>
    cases sub <;> simp [stringsContains]
  | cons c t ih =>
    simp only [stringsContains, Bool.or_eq_true, ih, stringsHasPrefix, List.isPrefixOf_iff_prefix,
      List.infix_cons_iff]

theorem GoError.contains_self (e : GoError) : e.contains e = true := by
  cases e <;> simp [GoError.contains]

theorem GoError.contains_wrap (msg : String) (e t : GoError) (h : e.contains t = true) :
    (GoError.wrap msg e).contains t = true := by
  simp [GoError.contains, h]

/-! ## `SetPassphrase` -/

theorem renderMounts_contains (table : List MountEntry) (e : MountEntry) (h : e ∈ table) :
    stringsContains (renderMounts table) (ascii " " ++ e.mountPoint ++ ascii " ") = true := by
  rw [stringsContains_iff]
  obtain ⟨l1, l2, rfl⟩ := List.append_of_mem h
  refine ⟨(l1.map MountEntry.line).flatten ++ e.device,
    e.fsType ++ ascii " " ++ e.options ++ ascii " " ++ e.dump ++ ascii " " ++ e.pass
      ++ ascii "\n" ++ (l2.map MountEntry.line).flatten, ?_⟩
  simp [renderMounts, MountEntry.line, List.append_assoc]

/-- C1 (what the code does): once the mount-table and key-file checks have
passed, `SetPassphrase` returns the nil error whatever happens on the path it
selects: the results of `SetupNewDisk` and `MountExistingDisk` are dropped. -/
theorem SetPassphrase_drops_path_error (env : Env)
    (devicePath keyFile mapperName mapperDevice mountPoint passphrase : Bytes) (w : World)
    (hmounted : (CheckMounted env mountPoint w).1 = false)
    (hstat : (osStat env keyFile (CheckMounted env mountPoint w).2).1 = none) :
    (SetPassphrase env devicePath keyFile mapperName mapperDevice mountPoint passphrase w).1
      = none := by
  simp only [SetPassphrase, hmounted, hstat, Bool.false_eq_true, if_false]
  split <;> rfl

theorem SetPassphrase_drops_path_error_witness :
    (CheckMounted (failingCommands [(ascii "isLuks", 1), (ascii "luksFormat", 5)] [])
        (ascii "/persistent") (bootWorld (ascii "AAAA") [])).1 = false
    ∧ (SetupNewDisk (failingCommands [(ascii "isLuks", 1), (ascii "luksFormat", 5)] [])
        (ascii "/etc/root_key") (ascii "/dev/sdb") (ascii "secret") (ascii "cryptdisk")
        (ascii "/dev/mapper/cryptdisk") (ascii "/persistent") (bootWorld (ascii "AAAA") [])).1
        = some (GoError.wrap "error formatting disk: " (GoError.ext 5))
    ∧ (SetPassphrase (failingCommands [(ascii "isLuks", 1), (ascii "luksFormat", 5)] [])
        (ascii "/dev/sdb") (ascii "/etc/root_key") (ascii "cryptdisk")
        (ascii "/dev/mapper/cryptdisk") (ascii "/persistent") (ascii "secret")
        (bootWorld (ascii "AAAA") [])).1 = none :=
  ⟨by decide, by decide,
    SetPassphrase_drops_path_error _ _ _ _ _ _ _ _ (by decide) (by decide)⟩

/-- C2: when the mount table read from `/proc/mounts` has an entry whose mount
point is `mountPoint`, `SetPassphrase` returns the error "encrypted disk
already setup", and all it has done is read `/proc/mounts`: no command was run
and no file was changed. -/
theorem SetPassphrase_already_mounted (env : Env)
    (devicePath keyFile mapperName mapperDevice mountPoint passphrase : Bytes) (w : World)
    (table : List MountEntry)
    (hread : env.fault w.log (Op.readFile (ascii "/proc/mounts")) = none)
    (hfile : w.files (ascii "/proc/mounts") = some (renderMounts table))
    (hentry : ∃ e ∈ table, e.mountPoint = mountPoint) :
    (SetPassphrase env devicePath keyFile mapperName mapperDevice mountPoint passphrase w).1
        = some (GoError.new "encrypted disk already setup")
    ∧ (SetPassphrase env devicePath keyFile mapperName mapperDevice mountPoint passphrase w).2.log
        = w.log ++ [Op.readFile (ascii "/proc/mounts")]
    ∧ (SetPassphrase env devicePath keyFile mapperName mapperDevice mountPoint passphrase w).2.files
        = w.files := by
  obtain ⟨e, he, rfl⟩ := hentry
  have hc := renderMounts_contains table e he
  rw [List.append_assoc] at hc
  simp [SetPassphrase, CheckMounted, osReadFile, hread, hfile, hc]

theorem SetPassphrase_already_mounted_witness :
    (SetPassphrase (constEnv (fun _ => none) (fun _ => [])) (ascii "/dev/sdb")
        (ascii "/etc/root_key") (ascii "cryptdisk") (ascii "/dev/mapper/cryptdisk")
        (ascii "/persistent") (ascii "secret")
        { files := sampleFiles
            (renderMounts
              [{ device := ascii "/dev/mapper/cryptdisk", mountPoint := ascii "/persistent",
                 fsType := ascii "ext4", options := ascii "rw,relatime", dump := ascii "0",
                 pass := ascii "0" }])
            (ascii "/etc/root_key") (ascii "AAAA") (ascii "/root/.ssh/authorized_keys") []
          log := [] }).1
      = some (GoError.new "encrypted disk already setup") :=
  (SetPassphrase_already_mounted _ _ _ _ _ _ _
    { files := sampleFiles
        (renderMounts
          [{ device := ascii "/dev/mapper/cryptdisk", mountPoint := ascii "/persistent",
             fsType := ascii "ext4", options := ascii "rw,relatime", dump := ascii "0",
             pass := ascii "0" }])
        (ascii "/etc/root_key") (ascii "AAAA") (ascii "/root/.ssh/authorized_keys") []
      log := [] }
    [{ device := ascii "/dev/mapper/cryptdisk", mountPoint := ascii "/persistent",
       fsType := ascii "ext4", options := ascii "rw,relatime", dump := ascii "0",
       pass := ascii "0" }]
    rfl rfl ⟨_, List.mem_singleton.mpr rfl, rfl⟩).1

/-! ## `SetupNewDisk` and `CleanupMount` -/

theorem worldMounted_log (env : Env)
    (devicePath passphrase mapperName mapperDevice mountPoint : Bytes) (w : World) :
    (worldMounted env devicePath passphrase mapperName mapperDevice mountPoint w).log
      = w.log ++ [opFormat devicePath passphrase, opOpen devicePath mapperName passphrase,
          opMkfs mapperDevice, Op.mkdirAll mountPoint 0o755, opMount mapperDevice mountPoint] := by
  simp [worldMounted, external, osMkdirAll]

theorem CleanupMount_log (env : Env) (mountPoint mapperName : Bytes) (w : World) :
    (CleanupMount env mountPoint mapperName w).2.log
      = w.log ++ [opUmount mountPoint]
          ++ (if env.fault w.log (opUmount mountPoint) = none then [opClose mapperName] else []) := by
  unfold CleanupMount
  cases h : env.fault w.log (opUmount mountPoint) <;>
    simp [execRun, external, errOf, opUmount, opClose] at h ⊢ <;> simp [h]
  split <;> simp


theorem CleanupMount_result (env : Env) (mountPoint mapperName : Bytes) (w : World) :
    (CleanupMount env mountPoint mapperName w).1
      = match env.fault w.log (opUmount mountPoint) with
        | some ue => some (GoError.wrap "error unmounting filesystem: " ue)
        | none =>
          match env.fault (w.log ++ [opUmount mountPoint]) (opClose mapperName) with
          | some ce => some (GoError.wrap "error closing LUKS device: " ce)
          | none => none := by
  unfold CleanupMount
  cases h : env.fault w.log (opUmount mountPoint) <;>
    simp [execRun, external, errOf, opUmount, opClose] at h ⊢ <;> simp [h]
  cases h2 : env.fault (w.log ++ [Op.exec [ascii "umount", mountPoint] none])
    (Op.exec [ascii "cryptsetup", ascii "close", mapperName] none) <;> simp

/-- The error returned after a failure `e` followed by `CleanupMount`: it
contains `e` and the error of the cleanup action that failed, if one did. -/
theorem joined_cleanup_error (env : Env) (mountPoint mapperName : Bytes) (w : World)
    (msg : String) (e : GoError) :
    ∃ err, errorfW msg (errorsJoin (some e) (CleanupMount env mountPoint mapperName w).1) = err
      ∧ err.contains e = true
      ∧ (∀ ue, env.fault w.log (opUmount mountPoint) = some ue → err.contains ue = true)
      ∧ (∀ ce, env.fault w.log (opUmount mountPoint) = none →
          env.fault (w.log ++ [opUmount mountPoint]) (opClose mapperName) = some ce →
          err.contains ce = true) := by
  refine ⟨_, rfl, ?_, ?_, ?_⟩
  · rw [CleanupMount_result]
    cases env.fault w.log (opUmount mountPoint) with
    | some ue => simp [errorsJoin, errorfW, GoError.contains, GoError.contains_self]
    | none =>
      cases env.fault (w.log ++ [opUmount mountPoint]) (opClose mapperName) <;>
        simp [errorsJoin, errorfW, GoError.contains, GoError.contains_self]
  · intro ue h
    rw [CleanupMount_result, h]
    simp [errorsJoin, errorfW, GoError.contains, GoError.contains_self]
  · intro ce h1 h2
    rw [CleanupMount_result, h1]
    simp [h2, errorsJoin, errorfW, GoError.contains, GoError.contains_self]


/-- C8 (as amended): in a run of `SetupNewDisk` in which formatting succeeded
and a later step fails, the returned error contains the error of the failing
step, and (1) when the unlock fails nothing is cleaned up; (2) when mkfs or
(3) mount fails, closing the mapper is attempted, and no unmount; (4) when the
key-file read or (5) the token import fails, the unmount is attempted, closing
the mapper is attempted when the unmount succeeded, and the returned error
contains the error of the cleanup action that failed. -/
theorem SetupNewDisk_cleanup (env : Env)
    (keyFile devicePath passphrase mapperName mapperDevice mountPoint : Bytes) (w : World)
    (hfmt : env.fault w.log (opFormat devicePath passphrase) = none) :
    let r := SetupNewDisk env keyFile devicePath passphrase mapperName mapperDevice mountPoint w
    let L1 := w.log ++ [opFormat devicePath passphrase]
    let L2 := L1 ++ [opOpen devicePath mapperName passphrase]
    let L3 := L2 ++ [opMkfs mapperDevice]
    let L4 := L3 ++ [Op.mkdirAll mountPoint 0o755]
    let L5 := L4 ++ [opMount mapperDevice mountPoint]
    let L6 := L5 ++ [Op.readFile keyFile]
    let W5 := worldMounted env devicePath passphrase mapperName mapperDevice mountPoint w
    (∀ e, env.fault L1 (opOpen devicePath mapperName passphrase) = some e →
        (∃ err, r.1 = some err ∧ err.contains e = true) ∧ r.2.log = L2)
    ∧ (∀ e, env.fault L1 (opOpen devicePath mapperName passphrase) = none →
        env.fault L2 (opMkfs mapperDevice) = some e →
        (∃ err, r.1 = some err ∧ err.contains e = true)
        ∧ r.2.log = L3 ++ [opClose mapperName])
    ∧ (∀ e, env.fault L1 (opOpen devicePath mapperName passphrase) = none →
        env.fault L2 (opMkfs mapperDevice) = none →
        env.fault L4 (opMount mapperDevice mountPoint) = some e →
        (∃ err, r.1 = some err ∧ err.contains e = true)
        ∧ r.2.log = L5 ++ [opClose mapperName])
    ∧ (∀ e, env.fault L1 (opOpen devicePath mapperName passphrase) = none →
        env.fault L2 (opMkfs mapperDevice) = none →
        env.fault L4 (opMount mapperDevice mountPoint) = none →
        (osReadFile env keyFile W5).1 = Except.error e →
        (∃ ext, r.2.log = L6 ++ [opUmount mountPoint] ++ ext
          ∧ (env.fault L6 (opUmount mountPoint) = none → ext = [opClose mapperName]))
        ∧ ∃ err, r.1 = some err ∧ err.contains e = true
          ∧ (∀ ue, env.fault L6 (opUmount mountPoint) = some ue → err.contains ue = true)
          ∧ (∀ ce, env.fault L6 (opUmount mountPoint) = none →
              env.fault (L6 ++ [opUmount mountPoint]) (opClose mapperName) = some ce →
              err.contains ce = true))
    ∧ (∀ key tokenJSON e, env.fault L1 (opOpen devicePath mapperName passphrase) = none →
        env.fault L2 (opMkfs mapperDevice) = none →
        env.fault L4 (opMount mapperDevice mountPoint) = none →
        (osReadFile env keyFile W5).1 = Except.ok key →
        jsonMarshalToken (metadataToken key) = Except.ok tokenJSON →
        env.fault L6 (opTokenImport devicePath tokenJSON) = some e →
        (∃ ext, r.2.log = L6 ++ [opTokenImport devicePath tokenJSON] ++ [opUmount mountPoint]
            ++ ext
          ∧ (env.fault (L6 ++ [opTokenImport devicePath tokenJSON]) (opUmount mountPoint)
              = none → ext = [opClose mapperName]))
        ∧ ∃ err, r.1 = some err ∧ err.contains e = true
          ∧ (∀ ue, env.fault (L6 ++ [opTokenImport devicePath tokenJSON]) (opUmount mountPoint)
                = some ue → err.contains ue = true)
          ∧ (∀ ce, env.fault (L6 ++ [opTokenImport devicePath tokenJSON]) (opUmount mountPoint)
                = none →
              env.fault (L6 ++ [opTokenImport devicePath tokenJSON] ++ [opUmount mountPoint])
                (opClose mapperName) = some ce →
              err.contains ce = true)) := by
  intro r L1 L2 L3 L4 L5 L6 W5
  simp only [opFormat] at hfmt
  refine ⟨?_, ?_, ?_, ?_, ?_⟩
  · intro e h1
    simp only [L1, opFormat, opOpen, List.append_assoc, List.cons_append, List.nil_append] at h1
    refine ⟨⟨GoError.wrap "error opening LUKS device: " e, ?_,
      GoError.contains_wrap _ _ _ (GoError.contains_self e)⟩, ?_⟩ <;>
    simp [r, L2, L1, SetupNewDisk, execRun, external, errOf, opFormat, opOpen, hfmt, h1]
  · intro e h1 h2
    simp only [L1, L2, opFormat, opOpen, opMkfs, List.append_assoc, List.cons_append,
      List.nil_append] at h1 h2
    refine ⟨⟨GoError.wrap "error creating filesystem: " e, ?_,
      GoError.contains_wrap _ _ _ (GoError.contains_self e)⟩, ?_⟩ <;>
    simp [r, L3, L2, L1, SetupNewDisk, execRun, external, errOf, opFormat, opOpen, opMkfs, opClose,
      hfmt, h1, h2]
  · intro e h1 h2 h3
    simp only [L1, L2, L3, L4, opFormat, opOpen, opMkfs, opMount, List.append_assoc,
      List.cons_append, List.nil_append] at h1 h2 h3
    refine ⟨⟨GoError.wrap "error mounting filesystem: " e, ?_,
      GoError.contains_wrap _ _ _ (GoError.contains_self e)⟩, ?_⟩ <;>
    simp [r, L5, L4, L3, L2, L1, SetupNewDisk, execRun, external, errOf, osMkdirAll, opFormat,
      opOpen, opMkfs, opMount, opClose, hfmt, h1, h2, h3]
  · intro e h1 h2 h3 h4
    simp only [L1, L2, L3, L4, opFormat, opOpen, opMkfs, opMount, List.append_assoc,
      List.cons_append, List.nil_append] at h1 h2 h3
    have hw : (osReadFile env keyFile W5).2.log = L6 := by
      simp [osReadFile, W5, worldMounted_log, L6, L5, L4, L3, L2, L1]
    have hr : r = (some (errorfW "error reading SSH key file: "
        (errorsJoin (some e)
          (CleanupMount env mountPoint mapperName (osReadFile env keyFile W5).2).1)),
        (CleanupMount env mountPoint mapperName (osReadFile env keyFile W5).2).2) := by
      simp only [W5, worldMounted, opFormat, opOpen, opMkfs, opMount, external, osMkdirAll,
        List.append_assoc, List.cons_append, List.nil_append] at h4
      simp only [r, W5, worldMounted, SetupNewDisk, execRun, external, errOf, osMkdirAll, opFormat,
        opOpen, opMkfs, opMount, hfmt, h1, h2, h3, h4, List.append_assoc, List.cons_append,
        List.nil_append]
    rw [hr]
    refine ⟨⟨_, by rw [CleanupMount_log, hw], fun h => by rw [if_pos h]⟩, ?_⟩
    obtain ⟨err, herr, hc⟩ := joined_cleanup_error env mountPoint mapperName
      (osReadFile env keyFile W5).2 "error reading SSH key file: " e
    rw [hw] at hc
    exact ⟨err, by rw [← herr], hc⟩
  · intro key tokenJSON e h1 h2 h3 h4 hj h5
    simp only [L1, L2, L3, L4, opFormat, opOpen, opMkfs, opMount, List.append_assoc,
      List.cons_append, List.nil_append] at h1 h2 h3
    have hw : (external env (opTokenImport devicePath tokenJSON)
        (osReadFile env keyFile W5).2).2.log = L6 ++ [opTokenImport devicePath tokenJSON] := by
      simp [external, osReadFile, W5, worldMounted_log, L6, L5, L4, L3, L2, L1]
    have hr : r = (some (errorfW "error importing token to LUKS header: "
        (errorsJoin (some e) (CleanupMount env mountPoint mapperName
          (external env (opTokenImport devicePath tokenJSON)
            (osReadFile env keyFile W5).2).2).1)),
        (CleanupMount env mountPoint mapperName
          (external env (opTokenImport devicePath tokenJSON)
            (osReadFile env keyFile W5).2).2).2) := by
      have h5b : env.fault (osReadFile env keyFile W5).2.log (opTokenImport devicePath tokenJSON)
          = some e := by
        rw [← h5]
        simp [osReadFile, W5, worldMounted_log, L6, L5, L4, L3, L2, L1]
      simp only [W5, worldMounted, opFormat, opOpen, opMkfs, opMount, opTokenImport, external,
        osMkdirAll, List.append_assoc, List.cons_append, List.nil_append] at h4 h5b
      simp only [r, W5, worldMounted, SetupNewDisk, execRun, external, errOf, osMkdirAll, opFormat,
        opOpen, opMkfs, opMount, opTokenImport, hfmt, h1, h2, h3, h4, hj, h5b, List.append_assoc,
        List.cons_append, List.nil_append]
    rw [hr]
    refine ⟨⟨_, by rw [CleanupMount_log, hw], fun h => by rw [if_pos h]⟩, ?_⟩
    obtain ⟨err, herr, hc⟩ := joined_cleanup_error env mountPoint mapperName
      (external env (opTokenImport devicePath tokenJSON) (osReadFile env keyFile W5).2).2
      "error importing token to LUKS header: " e
    rw [hw] at hc
    exact ⟨err, by rw [← herr], hc⟩

theorem SetupNewDisk_cleanup_witness :
    ∃ err, (SetupNewDiskDefault (failingCommands [(ascii "token", 7)] [(ascii "umount", 32)])
        (bootWorld (ascii "AAAA") [])).1 = some err
      ∧ err.contains (GoError.ext 7) = true ∧ err.contains (GoError.ext 32) = true := by
  have h := (SetupNewDisk_cleanup (failingCommands [(ascii "token", 7)] [(ascii "umount", 32)])
    (ascii "/etc/root_key") (ascii "/dev/sdb") (ascii "secret") (ascii "cryptdisk")
    (ascii "/dev/mapper/cryptdisk") (ascii "/persistent") (bootWorld (ascii "AAAA") [])
    (by decide)).2.2.2.2 (ascii "AAAA")
    (ascii "\x7b\"type\":\"user\",\"keyslots\":[],\"user_data\":\x7b\"metadata\":\"AAAA\"\x7d\x7d")
    (GoError.ext 7) (by decide) (by decide) (by decide) (by decide) (by decide) (by decide)
  obtain ⟨err, h1, h2, h3, -⟩ := h.2
  exact ⟨err, h1, h2, h3 (GoError.ext 32) (by decide)⟩

/-- C8 (counterexample): formatting succeeds, the mount fails with error 32 and
the close that follows fails with error 5. No unmount is attempted, and the
returned error does not contain the error of the close. -/
theorem SetupNewDisk_cleanup_counterexample :
    (failingCommands [(ascii "close", 5)] [(ascii "mount", 32)]).fault []
        (opFormat (ascii "/dev/sdb") (ascii "secret")) = none
    ∧ (SetupNewDiskDefault (failingCommands [(ascii "close", 5)] [(ascii "mount", 32)])
        (bootWorld (ascii "AAAA") [])).1
        = some (GoError.wrap "error mounting filesystem: " (GoError.ext 32))
    ∧ opUmount (ascii "/persistent")
        ∉ (SetupNewDiskDefault (failingCommands [(ascii "close", 5)] [(ascii "mount", 32)])
            (bootWorld (ascii "AAAA") [])).2.log
    ∧ opClose (ascii "cryptdisk")
        ∈ (SetupNewDiskDefault (failingCommands [(ascii "close", 5)] [(ascii "mount", 32)])
            (bootWorld (ascii "AAAA") [])).2.log
    ∧ (failingCommands [(ascii "close", 5)] [(ascii "mount", 32)]).fault
        [opFormat (ascii "/dev/sdb") (ascii "secret"),
         opOpen (ascii "/dev/sdb") (ascii "cryptdisk") (ascii "secret"),
         opMkfs (ascii "/dev/mapper/cryptdisk"), Op.mkdirAll (ascii "/persistent") 0o755,
         opMount (ascii "/dev/mapper/cryptdisk") (ascii "/persistent")]
        (opClose (ascii "cryptdisk")) = some (GoError.ext 5)
    ∧ (GoError.wrap "error mounting filesystem: " (GoError.ext 32)).contains (GoError.ext 5)
        = false := by
  decide


/-! ## What the functions add to the log -/

theorem LogExtends.step {P : Op → Bool} {w w1 w2 : World} (op : Op)
    (h : LogExtends P w w1) (hlog : w2.log = w1.log ++ [op]) (hop : P op = true) :
    LogExtends P w w2 := by
  obtain ⟨ext, h1, h2⟩ := h
  refine ⟨ext ++ [op], by rw [hlog, h1, List.append_assoc], ?_⟩
  intro o ho
  rcases List.mem_append.mp ho with ho | ho
  · exact h2 o ho
  · rw [List.mem_singleton.mp ho]; exact hop

theorem LogExtends.trans {P : Op → Bool} {w w1 w2 : World}
    (h : LogExtends P w w1) (h2 : LogExtends P w1 w2) : LogExtends P w w2 := by
  obtain ⟨e1, a1, b1⟩ := h
  obtain ⟨e2, a2, b2⟩ := h2
  refine ⟨e1 ++ e2, by rw [a2, a1, List.append_assoc], ?_⟩
  intro o ho
  rcases List.mem_append.mp ho with ho | ho
  · exact b1 o ho
  · exact b2 o ho

theorem LogExtends.external {P : Op → Bool} {w w1 : World} (env : Env) (op : Op)
    (hop : P op = true) (h : LogExtends P w w1) : LogExtends P w (external env op w1).2 :=
  h.step op rfl hop

theorem LogExtends.execRun {P : Op → Bool} {w w1 : World} (env : Env) (argv : List Bytes)
    (stdin : Option Bytes) (hop : P (Op.exec argv stdin) = true) (h : LogExtends P w w1) :
    LogExtends P w (execRun env argv stdin w1).2 :=
  h.step _ rfl hop

theorem LogExtends.execOutput {P : Op → Bool} {w w1 : World} (env : Env) (argv : List Bytes)
    (hop : P (Op.exec argv none) = true) (h : LogExtends P w w1) :
    LogExtends P w (execOutput env argv w1).2 :=
  h.step _ rfl hop

theorem LogExtends.osReadFile {P : Op → Bool} {w w1 : World} (env : Env) (path : Bytes)
    (hop : P (Op.readFile path) = true) (h : LogExtends P w w1) :
    LogExtends P w (osReadFile env path w1).2 :=
  h.step _ rfl hop

theorem LogExtends.osStat {P : Op → Bool} {w w1 : World} (env : Env) (path : Bytes)
    (hop : P (Op.stat path) = true) (h : LogExtends P w w1) :
    LogExtends P w (osStat env path w1).2 :=
  h.step _ rfl hop

theorem LogExtends.osMkdirAll {P : Op → Bool} {w w1 : World} (env : Env) (path : Bytes)
    (perm : Nat) (hop : P (Op.mkdirAll path perm) = true) (h : LogExtends P w w1) :
    LogExtends P w (osMkdirAll env path perm w1).2 :=
  h.step _ rfl hop

theorem LogExtends.osChown {P : Op → Bool} {w w1 : World} (env : Env) (path : Bytes)
    (uid gid : Nat) (hop : P (Op.chown path uid gid) = true) (h : LogExtends P w w1) :
    LogExtends P w (osChown env path uid gid w1).2 :=
  h.step _ rfl hop

theorem osOpenFile_ok (env : Env) (path : Bytes) (flags : List OpenFlag) (perm : Nat)
    (w : World) (f : File) (h : (osOpenFile env path flags perm w).1 = Except.ok f) :
    f = { path := path, offset := 0, append := decide (OpenFlag.O_APPEND ∈ flags) }
    ∧ env.fault w.log (Op.openFile path flags perm) = none
    ∧ (∀ p, p ≠ path → (osOpenFile env path flags perm w).2.files p = w.files p)
    ∧ (OpenFlag.O_TRUNC ∉ flags →
        ((osOpenFile env path flags perm w).2.files path).getD [] = (w.files path).getD []) := by
  unfold osOpenFile at h ⊢
  dsimp only at h ⊢
  cases hf : env.fault w.log (Op.openFile path flags perm) with
  | some e => simp [hf] at h
  | none =>
    cases hp : w.files path with
    | none =>
      by_cases hc : OpenFlag.O_CREATE ∈ flags
      · simp only [hf, hp, hc, if_true, Except.ok.injEq] at h ⊢
        refine ⟨h.symm, trivial, ?_, ?_⟩
        · intro p hne; simp [hne, hp]
        · intro _; simp
      · simp [hf, hp, hc] at h
    | some c =>
      simp only [hf, hp, Except.ok.injEq] at h ⊢
      refine ⟨h.symm, trivial, ?_, ?_⟩
      · intro p hne
        split <;> simp [hne]
      · intro ht; simp [ht, hp]

theorem osWriteFile_ok (env : Env) (path data : Bytes) (perm : Nat) (w : World)
    (h : (osWriteFile env path data perm w).1 = none) :
    (osWriteFile env path data perm w).2.files
      = fun p => if p = path then some data else w.files p := by
  unfold osWriteFile at h ⊢
  dsimp only at h ⊢
  split at h
  · simp at h
  · rename_i hf
    simp only [hf]

theorem fileWriteString_ok (env : Env) (f : File) (data : Bytes) (w : World)
    (h : (fileWriteString env f data w).1 = none) :
    (fileWriteString env f data w).2.files
      = fun p => if p = f.path then
          some (if f.append then (w.files f.path).getD [] ++ data
            else writeAt ((w.files f.path).getD []) f.offset data)
        else w.files p := by
  unfold fileWriteString at h ⊢
  dsimp only at h ⊢
  split at h
  · simp at h
  · rename_i hf
    simp only [hf]

/-- C10 (what the code does): after a successful `writeKey` on an
`authorized_keys` file holding `C`, the file holds the new line followed by
what of `C` lay beyond the length of that line: the line is written over the
start of the file, not after its end. The key file holds exactly the key. -/
theorem writeKey_overwrites (env : Env) (options : TdxSetupManagerOptions) (key C : Bytes)
    (w : World)
    (hC : w.files (env.joinPath options.SSHDir (ascii "authorized_keys")) = some C)
    (hne : env.joinPath options.SSHDir (ascii "authorized_keys") ≠ options.KeyFile)
    (hok : (writeKey env options key w).1 = none) :
    (writeKey env options key w).2.files (env.joinPath options.SSHDir (ascii "authorized_keys"))
        = some (authorizedKeysLine key ++ C.drop (authorizedKeysLine key).length)
    ∧ (writeKey env options key w).2.files options.KeyFile = some key := by
  unfold writeKey at hok ⊢
  dsimp only at hok ⊢
  split at hok
  · simp at hok
  · rename_i f hf
    split at hok
    · simp at hok
    · rename_i hw
      split at hok
      · simp at hok
      · rename_i hk
        obtain ⟨hfile, -, hother, hsame⟩ := osOpenFile_ok _ _ _ _ _ _ hf
        have hsame2 := hsame (by decide)
        rw [show (osChown env options.SSHDir 1000 1000
          (osMkdirAll env options.SSHDir 0o700 w).2).2.files = w.files from rfl, hC] at hsame2
        simp only [hf, hw, hk, fileClose, osWriteFile_ok _ _ _ _ _ hk,
          fileWriteString_ok _ _ _ _ hw]
        subst hfile
        simp only [hne, if_false, if_true, hsame2]
        simp [writeAt]


set_option maxRecDepth 100000 in
theorem writeKey_overwrites_witness :
    (bootWorld [] (authorizedKeysLine otherKey)).files (ascii "/root/.ssh/authorized_keys")
        = some (authorizedKeysLine otherKey)
    ∧ (writeKey quietEnv DefaultTdxSetupManagerOptions sampleKey
        (bootWorld [] (authorizedKeysLine otherKey))).2.files (ascii "/root/.ssh/authorized_keys")
        = some (authorizedKeysLine sampleKey)
    ∧ authorizedKeysLine sampleKey ≠ authorizedKeysLine otherKey ++ authorizedKeysLine sampleKey :=
  ⟨by decide,
   (writeKey_overwrites quietEnv DefaultTdxSetupManagerOptions sampleKey
      (authorizedKeysLine otherKey) (bootWorld [] (authorizedKeysLine otherKey))
      (by decide) (by decide) (by decide)).1.trans (by decide),
   by decide⟩

/-! ## `tryFindKey` and `Setup` -/

theorem tryFindKey_embedded (env : Env) (devicePath : Bytes) (w : World) (tok : Token)
    (K : Bytes)
    (hprobe : env.fault w.log (opIsLuks devicePath) = none)
    (hexport : env.fault (w.log ++ [opIsLuks devicePath]) (opTokenExport devicePath) = none)
    (hparse : jsonUnmarshalToken
      (env.output (w.log ++ [opIsLuks devicePath]) (opTokenExport devicePath)) Token.zero
        = Except.ok tok)
    (hmeta : mapLookup tok.UserData (ascii "metadata") = some K) :
    tryFindKey env devicePath w
      = (Except.ok K,
          (external env (opTokenExport devicePath) (external env (opIsLuks devicePath) w).2).2) := by
  simp only [opIsLuks, opTokenExport] at hprobe hexport hparse
  simp [tryFindKey, execRun, execOutput, external, errOf, opIsLuks, opTokenExport, hprobe,
    hexport, hparse, hmeta]

theorem tryFindKey_bad_token (env : Env) (devicePath : Bytes) (w : World)
    (hprobe : env.fault w.log (opIsLuks devicePath) = none)
    (hbad : (∃ e, env.fault (w.log ++ [opIsLuks devicePath]) (opTokenExport devicePath) = some e)
      ∨ (∃ e, jsonUnmarshalToken
          (env.output (w.log ++ [opIsLuks devicePath]) (opTokenExport devicePath)) Token.zero
            = Except.error e)
      ∨ (∃ tok, jsonUnmarshalToken
          (env.output (w.log ++ [opIsLuks devicePath]) (opTokenExport devicePath)) Token.zero
            = Except.ok tok ∧ mapLookup tok.UserData (ascii "metadata") = none)) :
    ∃ err, tryFindKey env devicePath w
      = (Except.error err,
          (external env (opTokenExport devicePath) (external env (opIsLuks devicePath) w).2).2) := by
  simp only [opIsLuks, opTokenExport] at hprobe hbad
  cases hx : env.fault (w.log ++ [Op.exec [ascii "cryptsetup", ascii "isLuks", devicePath] none])
      (Op.exec [ascii "cryptsetup", ascii "token", ascii "export", ascii "--token-id", ascii "1",
        devicePath] none) with
  | some e =>
    exact ⟨GoError.wrap "failed to export LUKS token: " e, by
      simp [tryFindKey, execRun, execOutput, external, errOf, opIsLuks, opTokenExport, hprobe, hx]⟩
  | none =>
    rcases hbad with ⟨e, he⟩ | ⟨e, he⟩ | ⟨tok, he, hm⟩
    · rw [hx] at he; cases he
    · exact ⟨GoError.wrap "failed to parse token JSON: " e, by
        simp [tryFindKey, execRun, execOutput, external, errOf, opIsLuks, opTokenExport, hprobe,
          hx, he]⟩
    · exact ⟨GoError.new "no metadata found in token", by
        simp [tryFindKey, execRun, execOutput, external, errOf, opIsLuks, opTokenExport, hprobe,
          hx, he, hm]⟩


/-- C7: when the device's header probe succeeds and the token is missing or
malformed (the token export fails, or its output does not decode into a
`Token`, or the decoded `user_data` has no `metadata` entry), `Setup` returns
an error, and all it has done is find the disk, probe the header and run the
export: `SetPassphrase` is not invoked, nothing is unlocked or mounted. -/
theorem Setup_bad_token_no_mount (env : Env) (options : TdxSetupManagerOptions) (w : World)
    (devicePath : Bytes)
    (hfind : env.fault w.log Op.findDisk = none)
    (hdev : env.output w.log Op.findDisk = devicePath)
    (hprobe : env.fault (w.log ++ [Op.findDisk]) (opIsLuks devicePath) = none)
    (hbad : (∃ e, env.fault (w.log ++ [Op.findDisk, opIsLuks devicePath])
          (opTokenExport devicePath) = some e)
      ∨ (∃ e, jsonUnmarshalToken
          (env.output (w.log ++ [Op.findDisk, opIsLuks devicePath]) (opTokenExport devicePath))
          Token.zero = Except.error e)
      ∨ (∃ tok, jsonUnmarshalToken
          (env.output (w.log ++ [Op.findDisk, opIsLuks devicePath]) (opTokenExport devicePath))
          Token.zero = Except.ok tok ∧ mapLookup tok.UserData (ascii "metadata") = none)) :
    (∃ err, (Setup env options w).1 = some (GoError.wrap "failed to find key: " err))
    ∧ (Setup env options w).2.log
        = w.log ++ [Op.findDisk, opIsLuks devicePath, opTokenExport devicePath] := by
  have h1 : (external env Op.findDisk w).1 = Except.ok devicePath := by
    simp [external, hfind, hdev]
  obtain ⟨err, h2⟩ := tryFindKey_bad_token env devicePath (external env Op.findDisk w).2 hprobe
    (by simpa [external] using hbad)
  unfold Setup
  simp only [h1, h2]
  exact ⟨⟨err, rfl⟩, by simp [external]⟩

theorem Setup_bad_token_no_mount_witness :
    (∃ err, (Setup (resumeEnv (ascii "\x7b\"type\":\"user\",\"keyslots\":[]\x7d"))
        DefaultTdxSetupManagerOptions (bootWorld [] [])).1
        = some (GoError.wrap "failed to find key: " err))
    ∧ (Setup (resumeEnv (ascii "\x7b\"type\":\"user\",\"keyslots\":[]\x7d"))
        DefaultTdxSetupManagerOptions (bootWorld [] [])).2.log
        = (bootWorld [] []).log
            ++ [Op.findDisk, opIsLuks (ascii "/dev/sdb"), opTokenExport (ascii "/dev/sdb")] :=
  Setup_bad_token_no_mount (resumeEnv (ascii "\x7b\"type\":\"user\",\"keyslots\":[]\x7d"))
    DefaultTdxSetupManagerOptions (bootWorld [] []) (ascii "/dev/sdb") (by decide) (by decide)
    (by decide)
    (Or.inr (Or.inr ⟨{ TokenType := ascii "user", Keyslots := some [], UserData := none },
      by decide, by decide⟩))


/-! ## The key listener -/

theorem inKeyClass_iff (c : Nat) : inKeyClass c = true ↔ c ∈ keyAlphabet := by
  constructor
  · intro h
    have hc : c < 123 := by
      simp only [inKeyClass, Bool.or_eq_true, Bool.and_eq_true, decide_eq_true_eq,
        beq_iff_eq] at h
      omega
    have hall : ∀ x, x < 123 → inKeyClass x = true → x ∈ keyAlphabet := by decide
    exact hall c hc h
  · intro h
    have hall : ∀ x ∈ keyAlphabet, inKeyClass x = true := by decide
    exact hall c h

theorem matchClassRepeat_some (n : Nat) (s rest : Bytes) :
    matchClassRepeat n s = some rest
      ↔ ∃ pre, s = pre ++ rest ∧ pre.length = n ∧ ∀ c ∈ pre, inKeyClass c = true := by
  induction n generalizing s with
  | zero =>
    simp only [matchClassRepeat, Option.some.injEq, List.length_eq_zero]
    constructor
    · intro h; exact ⟨[], by simp [h], rfl, by simp⟩
    · rintro ⟨pre, h1, h2, -⟩; subst h2; simpa using h1
  | succ n ih =>
    cases s with
    | nil =>
      simp only [matchClassRepeat]
      constructor
      · intro h; cases h
      · rintro ⟨pre, h1, h2, -⟩
        cases pre with
        | nil => simp at h2
        | cons a t => simp at h1
    | cons c t =>
      simp only [matchClassRepeat]
      by_cases hc : inKeyClass c = true
      · simp only [hc, if_true, ih]
        constructor
        · rintro ⟨pre, h1, h2, h3⟩
          refine ⟨c :: pre, by simp [h1], by simp [h2], ?_⟩
          intro x hx
          rcases List.mem_cons.mp hx with rfl | hx
          · exact hc
          · exact h3 x hx
        · rintro ⟨pre, h1, h2, h3⟩
          cases pre with
          | nil => simp at h2
          | cons a p =>
            simp only [List.cons_append, List.cons.injEq] at h1
            refine ⟨p, h1.2, by simpa using h2, fun x hx => h3 x (List.mem_cons_of_mem _ hx)⟩
      · simp only [hc]
        constructor
        · intro h; simp at h
        · rintro ⟨pre, h1, h2, h3⟩
          cases pre with
          | nil => simp at h2
          | cons a p =>
            simp only [List.cons_append, List.cons.injEq] at h1
            exact absurd (h1.1 ▸ h3 a (List.mem_cons_self _ _)) hc

theorem matchKeyPattern_iff (key : Bytes) : matchKeyPattern key = true ↔ WellFormedKey key := by
  unfold matchKeyPattern WellFormedKey
  constructor
  · intro h
    split at h
    · rename_i rest hm
      obtain ⟨pre, h1, h2, h3⟩ := (matchClassRepeat_some 68 key rest).mp hm
      have hr : rest = [] := by simpa using h
      subst hr
      simp only [List.append_nil] at h1
      subst h1
      exact ⟨h2, fun c hc => (inKeyClass_iff c).mp (h3 c hc)⟩
    · simp at h
  · rintro ⟨h1, h2⟩
    have hm : matchClassRepeat 68 key = some [] :=
      (matchClassRepeat_some 68 key []).mpr
        ⟨key, by simp, h1, fun c hc => (inKeyClass_iff c).mpr (h2 c hc)⟩
    simp [hm]

/-- C5: the handler answers a POST whose body is a well-formed key (exactly 68
characters, each of `A`-`Z`, `a`-`z`, `0`-`9`, `+`, `/`) with status 200 and
hands exactly that body to the waiting caller; it answers a POST with any
other body, or one whose body cannot be read, with status 400 and hands
nothing off; it answers any other method with status 405 and hands nothing
off. -/
theorem handler_contract (r : Request) :
    (r.method = ascii "POST" →
      (∀ body, r.body = Except.ok body →
        (WellFormedKey body →
          responseStatus (handler r) = some 200 ∧ handedOff (handler r) = [body])
        ∧ (¬ WellFormedKey body →
          responseStatus (handler r) = some 400 ∧ handedOff (handler r) = []))
      ∧ (∀ e, r.body = Except.error e →
          responseStatus (handler r) = some 400 ∧ handedOff (handler r) = []))
    ∧ (r.method ≠ ascii "POST" →
        responseStatus (handler r) = some 405 ∧ handedOff (handler r) = []) := by
  refine ⟨fun hm => ⟨fun body hb => ⟨fun hw => ?_, fun hw => ?_⟩, fun e he => ?_⟩, fun hm => ?_⟩
  · have := (matchKeyPattern_iff body).mpr hw
    simp [handler, hm, hb, this, responseStatus, handedOff, StatusOK]
  · have : matchKeyPattern body = false := by
      rw [← Bool.not_eq_true]; exact fun h => hw ((matchKeyPattern_iff body).mp h)
    simp [handler, hm, hb, this, responseStatus, handedOff, StatusBadRequest]
  · simp [handler, hm, he, responseStatus, handedOff, StatusBadRequest]
  · simp [handler, hm, responseStatus, handedOff, StatusMethodNotAllowed]

set_option maxRecDepth 100000 in
theorem handler_contract_witness :
    (responseStatus (handler { method := ascii "POST", body := Except.ok sampleKey }) = some 200
      ∧ handedOff (handler { method := ascii "POST", body := Except.ok sampleKey }) = [sampleKey])
    ∧ (responseStatus
          (handler { method := ascii "POST", body := Except.ok (sampleKey ++ ascii "\n") })
          = some 400
      ∧ handedOff (handler { method := ascii "POST", body := Except.ok (sampleKey ++ ascii "\n") })
          = [])
    ∧ (responseStatus (handler { method := ascii "GET", body := Except.ok sampleKey }) = some 405
      ∧ handedOff (handler { method := ascii "GET", body := Except.ok sampleKey }) = []) :=
  ⟨((handler_contract { method := ascii "POST", body := Except.ok sampleKey }).1 rfl).1
      sampleKey rfl |>.1 ⟨by decide, by decide⟩,
   ((handler_contract { method := ascii "POST", body := Except.ok (sampleKey ++ ascii "\n") }).1
      rfl).1 (sampleKey ++ ascii "\n") rfl |>.2 (fun h => absurd h.1 (by decide)),
   (handler_contract { method := ascii "GET", body := Except.ok sampleKey }).2 (by decide)⟩

/-- C9 (counterexample): when the listener fails (here with error 98, address
in use) `WaitForKey` returns without calling the server's shutdown. -/
theorem WaitForKey_counterexample :
    (WaitForKey (SelectCase.serverErr (GoError.ext 98)) (GoError.ext 125) none).1
        = ([], some (GoError.wrap "server error: " (GoError.ext 98)))
    ∧ ServerCall.shutdown
        ∉ (WaitForKey (SelectCase.serverErr (GoError.ext 98)) (GoError.ext 125) none).2 := by
  decide

/-- C9 (as amended): on the cancellation and key-received exits of `WaitForKey`
the server's shutdown is called before the return; on the listener-error exit
the listener's error is returned and shutdown is not called. When cancellation
fires first, shutdown is called and no key is returned: the error is the
cancellation error when the shutdown succeeded and the shutdown's error
otherwise. -/
theorem WaitForKey_shutdown (ctxErr : GoError) (shutdownResult : Option GoError) :
    ServerCall.shutdown ∈ (WaitForKey SelectCase.ctxDone ctxErr shutdownResult).2
    ∧ (∀ key, ServerCall.shutdown
        ∈ (WaitForKey (SelectCase.keyReceived key) ctxErr shutdownResult).2)
    ∧ (∀ e, WaitForKey (SelectCase.serverErr e) ctxErr shutdownResult
        = (([], some (GoError.wrap "server error: " e)), [ServerCall.listenAndServe]))
    ∧ (WaitForKey SelectCase.ctxDone ctxErr shutdownResult).1.1 = []
    ∧ (WaitForKey SelectCase.ctxDone ctxErr shutdownResult).1.2
        = some (match shutdownResult with
          | none => ctxErr
          | some e => GoError.wrap "server shutdown error: " e) := by
  cases shutdownResult <;> simp [WaitForKey]


/-! ## `FindLargestDisk` -/

theorem wrapInt64_of_fits (x : Int) (h1 : -(2 ^ 63) ≤ x) (h2 : x < 2 ^ 63) : wrapInt64 x = x := by
  unfold wrapInt64
  norm_num at h1 h2 ⊢
  omega

theorem hasSdNumber_eq (name : Bytes) :
    stringsContainsAny (name.drop (name.length - 1)) (ascii "0123456789")
      = (match name.getLast? with
        | some d => isDigit d
        | none => false) := by
  have hd : ∀ d : Nat, (ascii "0123456789").contains d = isDigit d := by
    intro d
    by_cases h : d < 58
    · have hall : ∀ x, x < 58 → (ascii "0123456789").contains x = isDigit x := by decide
      exact hall d h
    · have h1 : isDigit d = false := by simp [isDigit]; omega
      have h2 : (ascii "0123456789").contains d = false := by
        simp [ascii]; omega
      rw [h1, h2]
  rcases List.eq_nil_or_concat name with rfl | ⟨l, d, rfl⟩
  · simp [stringsContainsAny]
  · have := hd d
    simp only [List.contains_eq_any_beq, List.any_eq, beq_iff_eq] at this
    simpa [stringsContainsAny] using this

theorem hasPrefix_sd (name : Bytes) :
    stringsHasPrefix name (ascii "sd") = (name.take 2 == ascii "sd") := by
  have hsd : ascii "sd" = [115, 100] := by decide
  rw [hsd]
  match name with
  | [] => rfl
  | [a] => simp [stringsHasPrefix, List.isPrefixOf]
  | a :: b :: t =>
    simp only [stringsHasPrefix, List.isPrefixOf, List.take]
    rw [Bool.eq_iff_iff]
    simp only [Bool.and_eq_true, beq_iff_eq, List.cons.injEq, and_true, Bool.and_true]
    constructor <;> rintro ⟨h1, h2⟩ <;> exact ⟨h1.symm, h2.symm⟩

theorem scanStep_eq (st : Bytes × Int) (text : Bytes) :
    scanStep st text
      = match candidateOf text with
        | none => st
        | some c =>
          if wrapInt64 (c.2 * 1024) > st.2 then (ascii "/dev/" ++ c.1, wrapInt64 (c.2 * 1024))
          else st := by
  unfold scanStep candidateOf
  dsimp only
  split
  · rfl
  · split
    · rfl
    · rw [hasSdNumber_eq, hasPrefix_sd]
      simp only [isWholeDiskName]
      generalize (stringsFields (stringsTrimSpace text)).getD 3 [] = name
      generalize parseInt64 ((stringsFields (stringsTrimSpace text)).getD 2 []) = blocks
      by_cases hA : (List.take 2 name == ascii "sd") = true <;>
        by_cases hB : (match name.getLast? with
          | some d => isDigit d
          | none => false) = true <;>
        cases blocks <;> simp [hA, hB]


theorem foldl_scanStep (lines : List Bytes) (st : Bytes × Int) :
    lines.foldl scanStep st = (lines.filterMap candidateOf).foldl selectLarger st := by
  induction lines generalizing st with
  | nil => rfl
  | cons l ls ih =>
    rw [List.foldl_cons, ih, scanStep_eq]
    cases h : candidateOf l with
    | none => simp [List.filterMap_cons, h]
    | some c => simp [List.filterMap_cons, h, selectLarger]

theorem Selected_step (done : List (Bytes × Int)) (st : Bytes × Int) (c : Bytes × Int)
    (hc : -(2 ^ 53) ≤ c.2 ∧ c.2 < 2 ^ 53) (h : Selected done st) :
    Selected (done ++ [c]) (selectLarger st c) := by
  have hw : wrapInt64 (c.2 * 1024) = c.2 * 1024 := by
    apply wrapInt64_of_fits <;> norm_num at hc ⊢ <;> omega
  unfold selectLarger
  rw [hw]
  rcases h with ⟨rfl, hle⟩ | ⟨pre, name, blocks, post, rfl, rfl, hpos, hpre, hpost⟩
  · by_cases hgt : c.2 * 1024 > 0
    · simp only [hgt, if_true]
      refine Or.inr ⟨done, c.1, c.2, [], rfl, rfl, by omega, ?_, by simp⟩
      intro x hx
      have := hle x hx
      omega
    · simp only [hgt, if_false]
      refine Or.inl ⟨rfl, ?_⟩
      intro x hx
      rcases List.mem_append.mp hx with hx | hx
      · exact hle x hx
      · rw [List.mem_singleton.mp hx]; omega
  · by_cases hgt : c.2 * 1024 > blocks * 1024
    · simp only [hgt, if_true]
      refine Or.inr ⟨pre ++ (name, blocks) :: post, c.1, c.2, [], rfl, rfl, by omega, ?_, by simp⟩
      intro x hx
      rcases List.mem_append.mp hx with hx | hx
      · have := hpre x hx; omega
      · rcases List.mem_cons.mp hx with rfl | hx
        · show blocks < c.2; omega
        · have := hpost x hx; omega
    · simp only [hgt, if_false]
      refine Or.inr ⟨pre, name, blocks, post ++ [c], by simp, rfl, hpos, hpre, ?_⟩
      intro x hx
      rcases List.mem_append.mp hx with hx | hx
      · exact hpost x hx
      · rw [List.mem_singleton.mp hx]; omega

theorem Selected_foldl (rest done : List (Bytes × Int)) (st : Bytes × Int)
    (hrest : ∀ c ∈ rest, -(2 ^ 53) ≤ c.2 ∧ c.2 < 2 ^ 53) (h : Selected done st) :
    Selected (done ++ rest) (rest.foldl selectLarger st) := by
  induction rest generalizing done st with
  | nil => simpa using h
  | cons c cs ih =>
    have := ih (done ++ [c]) (selectLarger st c)
      (fun x hx => hrest x (List.mem_cons_of_mem _ hx))
      (Selected_step done st c (hrest c (List.mem_cons_self _ _)) h)
    simpa using this

/-- C6 (as amended): for a partition table whose whole-disk SCSI records have
block counts between -2^53 and 2^53 (so that the size in bytes fits 64 bits),
whenever `FindLargestDisk` returns a device it is `/dev/` followed by the name
of the whole-disk SCSI record with the greatest block count, the earliest such
record in scan order on ties. -/
theorem FindLargestDisk_largest (content dev : Bytes)
    (hfits : ∀ c ∈ candidates content, -(2 ^ 53) ≤ c.2 ∧ c.2 < 2 ^ 53)
    (hdev : FindLargestDisk (Except.ok content) = Except.ok dev) :
    ∃ pre name blocks post, candidates content = pre ++ (name, blocks) :: post
      ∧ dev = ascii "/dev/" ++ name
      ∧ (∀ c ∈ pre, c.2 < blocks) ∧ (∀ c ∈ post, c.2 ≤ blocks) := by
  have hsel := Selected_foldl (candidates content) [] ([], 0) hfits
    (Or.inl ⟨rfl, by simp⟩)
  rw [List.nil_append] at hsel
  unfold FindLargestDisk at hdev
  dsimp only at hdev
  rw [foldl_scanStep] at hdev
  change (match (scanSegments (splitLines content)).2 with
    | some err => Except.error err
    | none =>
      if ((candidates content).foldl selectLarger ([], 0)).1 = [] then
        Except.error (GoError.new "no SCSI disk found")
      else Except.ok ((candidates content).foldl selectLarger ([], 0)).1) = Except.ok dev at hdev
  split at hdev
  · cases hdev
  · split at hdev
    · cases hdev
    · rename_i hne
      injection hdev with hdev
      rcases hsel with ⟨hst, -⟩ | ⟨pre, name, blocks, post, hc, hst, -, hpre, hpost⟩
      · rw [hst] at hne; exact absurd rfl hne
      · exact ⟨pre, name, blocks, post, hc, by rw [← hdev, hst], hpre, hpost⟩

theorem FindLargestDisk_largest_witness :
    FindLargestDisk (Except.ok samplePartitions) = Except.ok (ascii "/dev/sdb")
    ∧ candidates samplePartitions = [(ascii "sda", 1000), (ascii "sdb", 2000)]
    ∧ ∃ pre name blocks post, candidates samplePartitions = pre ++ (name, blocks) :: post
      ∧ ascii "/dev/sdb" = ascii "/dev/" ++ name
      ∧ (∀ c ∈ pre, c.2 < blocks) ∧ (∀ c ∈ post, c.2 ≤ blocks) :=
  ⟨by decide, by decide,
    FindLargestDisk_largest samplePartitions (ascii "/dev/sdb") (by decide) (by decide)⟩

/-- C6 (counterexample): in a table whose disk `sda` reports 2^53 blocks and
whose disk `sdb` reports 2000, `FindLargestDisk` returns `/dev/sdb`, which is
not the record with the greatest block count: the size of `sda` in bytes does
not fit 64 bits. -/
theorem FindLargestDisk_counterexample :
    candidates hugePartitions = [(ascii "sda", 9007199254740992), (ascii "sdb", 2000)]
    ∧ FindLargestDisk (Except.ok hugePartitions) = Except.ok (ascii "/dev/sdb") := by
  decide


/-! ## UTF-8 -/

theorem decodeRune_two (b b1 : Nat) (t : Bytes) (hb : 0xC2 ≤ b ∧ b ≤ 0xDF)
    (h1 : 0x80 ≤ b1 ∧ b1 ≤ 0xBF) :
    decodeRune (b :: b1 :: t) = ((b % 32) * 64 + b1 % 64, 2) := by
  have hf : utf8First b = some (2, 0x80, 0xBF) := by
    unfold utf8First
    rw [if_neg (by omega), if_pos (by omega)]
  simp only [decodeRune, hf]
  rw [if_neg (by omega), if_neg (by simp), if_neg (by omega), if_pos (by omega)]

theorem decodeRune_three (b b1 b2 : Nat) (t : Bytes) (hb : 0xE0 ≤ b ∧ b ≤ 0xEF)
    (h1 : 0x80 ≤ b1 ∧ b1 ≤ 0xBF) (hlo : b = 0xE0 → 0xA0 ≤ b1) (hhi : b = 0xED → b1 ≤ 0x9F)
    (h2 : 0x80 ≤ b2 ∧ b2 ≤ 0xBF) :
    decodeRune (b :: b1 :: b2 :: t)
      = ((b % 16) * 4096 + (b1 % 64) * 64 + b2 % 64, 3) := by
  have hf : ∃ lo hi, utf8First b = some (3, lo, hi) ∧ lo ≤ b1 ∧ b1 ≤ hi := by
    unfold utf8First
    by_cases e0 : b = 0xE0
    · exact ⟨0xA0, 0xBF, by rw [if_neg (by omega), if_neg (by omega), if_pos e0], hlo e0, h1.2⟩
    · by_cases ed : b = 0xED
      · exact ⟨0x80, 0x9F, by rw [if_neg (by omega), if_neg (by omega), if_neg e0, if_pos ed],
          h1.1, hhi ed⟩
      · exact ⟨0x80, 0xBF, by
          rw [if_neg (by omega), if_neg (by omega), if_neg e0, if_neg ed, if_pos (by omega)],
          h1.1, h1.2⟩
  obtain ⟨lo, hi, hf, hl, hh⟩ := hf
  simp only [decodeRune, hf]
  rw [if_neg (by omega), if_neg (by simp), if_neg (by omega), if_neg (by omega),
    if_neg (by omega), if_pos (by omega)]

theorem decodeRune_four (b b1 b2 b3 : Nat) (t : Bytes) (hb : 0xF0 ≤ b ∧ b ≤ 0xF4)
    (h1 : 0x80 ≤ b1 ∧ b1 ≤ 0xBF) (hlo : b = 0xF0 → 0x90 ≤ b1) (hhi : b = 0xF4 → b1 ≤ 0x8F)
    (h2 : 0x80 ≤ b2 ∧ b2 ≤ 0xBF) (h3 : 0x80 ≤ b3 ∧ b3 ≤ 0xBF) :
    decodeRune (b :: b1 :: b2 :: b3 :: t)
      = ((b % 8) * 262144 + (b1 % 64) * 4096 + (b2 % 64) * 64 + b3 % 64, 4) := by
  have hf : ∃ lo hi, utf8First b = some (4, lo, hi) ∧ lo ≤ b1 ∧ b1 ≤ hi := by
    unfold utf8First
    by_cases e0 : b = 0xF0
    · exact ⟨0x90, 0xBF, by
        rw [if_neg (by omega), if_neg (by omega), if_neg (by omega), if_neg (by omega),
          if_neg (by omega), if_pos e0], hlo e0, h1.2⟩
    · by_cases e4 : b = 0xF4
      · exact ⟨0x80, 0x8F, by
          rw [if_neg (by omega), if_neg (by omega), if_neg (by omega), if_neg (by omega),
            if_neg (by omega), if_neg e0, if_neg (by omega), if_pos e4], h1.1, hhi e4⟩
      · exact ⟨0x80, 0xBF, by
          rw [if_neg (by omega), if_neg (by omega), if_neg (by omega), if_neg (by omega),
            if_neg (by omega), if_neg e0, if_pos (by omega)], h1.1, h1.2⟩
  obtain ⟨lo, hi, hf, hl, hh⟩ := hf
  simp only [decodeRune, hf]
  rw [if_neg (by omega), if_neg (by simp), if_neg (by omega), if_neg (by omega),
    if_neg (by omega), if_neg (by omega), if_neg (by omega)]


theorem utf8First_some (b sz lo hi : Nat) (h : utf8First b = some (sz, lo, hi)) :
    (sz = 2 ∧ 0xC2 ≤ b ∧ b ≤ 0xDF ∧ lo = 0x80 ∧ hi = 0xBF)
    ∨ (sz = 3 ∧ 0xE0 ≤ b ∧ b ≤ 0xEF ∧ 0x80 ≤ lo ∧ hi ≤ 0xBF ∧ (b = 0xE0 → 0xA0 ≤ lo)
        ∧ (b = 0xED → hi ≤ 0x9F))
    ∨ (sz = 4 ∧ 0xF0 ≤ b ∧ b ≤ 0xF4 ∧ 0x80 ≤ lo ∧ hi ≤ 0xBF ∧ (b = 0xF0 → 0x90 ≤ lo)
        ∧ (b = 0xF4 → hi ≤ 0x8F)) := by
  unfold utf8First at h
  split_ifs at h <;> simp only [Option.some.injEq, Prod.mk.injEq, reduceCtorEq] at h <;>
    obtain ⟨rfl, rfl, rfl⟩ := h <;> omega

theorem decodeRune_valid_cases (b : Nat) (rest : Bytes) (hb : 0x80 ≤ b)
    (hv : ¬((decodeRune (b :: rest)).1 = RuneError ∧ (decodeRune (b :: rest)).2 = 1)) :
    (∃ b1 t, rest = b1 :: t ∧ (0xC2 ≤ b ∧ b ≤ 0xDF) ∧ (0x80 ≤ b1 ∧ b1 ≤ 0xBF))
    ∨ (∃ b1 b2 t, rest = b1 :: b2 :: t ∧ (0xE0 ≤ b ∧ b ≤ 0xEF) ∧ (0x80 ≤ b1 ∧ b1 ≤ 0xBF)
        ∧ (b = 0xE0 → 0xA0 ≤ b1) ∧ (b = 0xED → b1 ≤ 0x9F) ∧ (0x80 ≤ b2 ∧ b2 ≤ 0xBF))
    ∨ (∃ b1 b2 b3 t, rest = b1 :: b2 :: b3 :: t ∧ (0xF0 ≤ b ∧ b ≤ 0xF4)
        ∧ (0x80 ≤ b1 ∧ b1 ≤ 0xBF) ∧ (b = 0xF0 → 0x90 ≤ b1) ∧ (b = 0xF4 → b1 ≤ 0x8F)
        ∧ (0x80 ≤ b2 ∧ b2 ≤ 0xBF) ∧ (0x80 ≤ b3 ∧ b3 ≤ 0xBF)) := by
  simp only [decodeRune] at hv
  rw [if_neg (by omega)] at hv
  rcases hf : utf8First b with _ | ⟨sz, lo, hi⟩
  · simp [hf] at hv
  · simp only [hf] at hv
    have hcases := utf8First_some b sz lo hi hf
    rcases hcases with ⟨rfl, h1, h2, rfl, rfl⟩ | ⟨rfl, h1, h2, h3, h4, h5, h6⟩ |
      ⟨rfl, h1, h2, h3, h4, h5, h6⟩
    · rcases rest with _ | ⟨b1, r1⟩
      · simp at hv
      · by_cases hr1 : b1 < 0x80 ∨ 0xBF < b1
        · simp [hr1] at hv
        · exact Or.inl ⟨b1, r1, rfl, ⟨h1, h2⟩, by omega⟩
    · rcases rest with _ | ⟨b1, _ | ⟨b2, r2⟩⟩
      · simp at hv
      · simp at hv
      · by_cases hr1 : b1 < lo ∨ hi < b1
        · simp [hr1] at hv
        · by_cases hr2 : b2 < 0x80 ∨ 0xBF < b2
          · simp [hr1, hr2] at hv
          · exact Or.inr (Or.inl ⟨b1, b2, r2, rfl, ⟨h1, h2⟩, by omega, by omega, by omega,
              by omega⟩)
    · rcases rest with _ | ⟨b1, _ | ⟨b2, _ | ⟨b3, r3⟩⟩⟩
      · simp at hv
      · simp at hv
      · simp at hv
      · by_cases hr1 : b1 < lo ∨ hi < b1
        · simp [hr1] at hv
        · by_cases hr2 : b2 < 0x80 ∨ 0xBF < b2
          · simp [hr1, hr2] at hv
          · by_cases hr3 : b3 < 0x80 ∨ 0xBF < b3
            · simp [hr1, hr2, hr3] at hv
            · exact Or.inr (Or.inr ⟨b1, b2, b3, r3, rfl, ⟨h1, h2⟩, by omega, by omega,
                by omega, by omega, by omega⟩)


theorem encodeRune_two (b b1 : Nat) (hb : 0xC2 ≤ b ∧ b ≤ 0xDF) (h1 : 0x80 ≤ b1 ∧ b1 ≤ 0xBF) :
    encodeRune ((b % 32) * 64 + b1 % 64) = [b, b1] := by
  unfold encodeRune
  rw [if_neg (by omega), if_pos (by omega)]
  have e1 : 0xC0 + ((b % 32) * 64 + b1 % 64) / 64 = b := by omega
  have e2 : 0x80 + ((b % 32) * 64 + b1 % 64) % 64 = b1 := by omega
  rw [e1, e2]

theorem encodeRune_three (b b1 b2 : Nat) (hb : 0xE0 ≤ b ∧ b ≤ 0xEF)
    (h1 : 0x80 ≤ b1 ∧ b1 ≤ 0xBF) (hlo : b = 0xE0 → 0xA0 ≤ b1) (hhi : b = 0xED → b1 ≤ 0x9F)
    (h2 : 0x80 ≤ b2 ∧ b2 ≤ 0xBF) :
    encodeRune ((b % 16) * 4096 + (b1 % 64) * 64 + b2 % 64) = [b, b1, b2] := by
  unfold encodeRune
  have hlo2 : b = 0xE0 ∨ 0xE1 ≤ b := by omega
  have hhi2 : b = 0xED ∨ b < 0xED ∨ 0xED < b := by omega
  rw [if_neg (by omega), if_neg (by omega), if_neg (by omega), if_pos (by omega)]
  have e1 : 0xE0 + ((b % 16) * 4096 + (b1 % 64) * 64 + b2 % 64) / 4096 = b := by omega
  have e2 : 0x80 + (((b % 16) * 4096 + (b1 % 64) * 64 + b2 % 64) / 64) % 64 = b1 := by omega
  have e3 : 0x80 + ((b % 16) * 4096 + (b1 % 64) * 64 + b2 % 64) % 64 = b2 := by omega
  rw [e1, e2, e3]

theorem encodeRune_four (b b1 b2 b3 : Nat) (hb : 0xF0 ≤ b ∧ b ≤ 0xF4)
    (h1 : 0x80 ≤ b1 ∧ b1 ≤ 0xBF) (hlo : b = 0xF0 → 0x90 ≤ b1) (hhi : b = 0xF4 → b1 ≤ 0x8F)
    (h2 : 0x80 ≤ b2 ∧ b2 ≤ 0xBF) (h3 : 0x80 ≤ b3 ∧ b3 ≤ 0xBF) :
    encodeRune ((b % 8) * 262144 + (b1 % 64) * 4096 + (b2 % 64) * 64 + b3 % 64)
      = [b, b1, b2, b3] := by
  unfold encodeRune
  rw [if_neg (by omega), if_neg (by omega), if_neg (by omega), if_neg (by omega)]
  have e1 : 0xF0 + ((b % 8) * 262144 + (b1 % 64) * 4096 + (b2 % 64) * 64 + b3 % 64) / 262144
      = b := by omega
  have e2 : 0x80 + (((b % 8) * 262144 + (b1 % 64) * 4096 + (b2 % 64) * 64 + b3 % 64) / 4096) % 64
      = b1 := by omega
  have e3 : 0x80 + (((b % 8) * 262144 + (b1 % 64) * 4096 + (b2 % 64) * 64 + b3 % 64) / 64) % 64
      = b2 := by omega
  have e4 : 0x80 + ((b % 8) * 262144 + (b1 % 64) * 4096 + (b2 % 64) * 64 + b3 % 64) % 64
      = b3 := by omega
  rw [e1, e2, e3, e4]

/-- A valid multi-byte rune at the head of a string: its bytes `b :: bs`, and
the facts the encoder and the decoder of JSON strings rely on. -/
theorem valid_rune (b : Nat) (rest : Bytes) (hb : 0x80 ≤ b)
    (hv : ¬((decodeRune (b :: rest)).1 = RuneError ∧ (decodeRune (b :: rest)).2 = 1)) :
    ∃ bs tail, rest = bs ++ tail
      ∧ (decodeRune (b :: rest)).2 = bs.length + 1
      ∧ encodeRune (decodeRune (b :: rest)).1 = b :: bs
      ∧ (∀ t, decodeRune (b :: (bs ++ t)) = decodeRune (b :: rest))
      ∧ ((decodeRune (b :: rest)).1 = 0x2028 ∨ (decodeRune (b :: rest)).1 = 0x2029 →
          bs.length = 2) := by
  rcases decodeRune_valid_cases b rest hb hv with ⟨b1, t, rfl, h0, h1⟩ |
    ⟨b1, b2, t, rfl, h0, h1, hlo, hhi, h2⟩ | ⟨b1, b2, b3, t, rfl, h0, h1, hlo, hhi, h2, h3⟩
  · refine ⟨[b1], t, rfl, ?_, ?_, ?_, ?_⟩
    · rw [decodeRune_two b b1 t h0 h1]; rfl
    · rw [decodeRune_two b b1 t h0 h1]; exact encodeRune_two b b1 h0 h1
    · intro t2
      rw [decodeRune_two b b1 t h0 h1]; exact decodeRune_two b b1 t2 h0 h1
    · rw [decodeRune_two b b1 t h0 h1]
      intro h
      exfalso
      simp only at h
      omega
  · refine ⟨[b1, b2], t, rfl, ?_, ?_, ?_, ?_⟩
    · rw [decodeRune_three b b1 b2 t h0 h1 hlo hhi h2]; rfl
    · rw [decodeRune_three b b1 b2 t h0 h1 hlo hhi h2]
      exact encodeRune_three b b1 b2 h0 h1 hlo hhi h2
    · intro t2
      rw [decodeRune_three b b1 b2 t h0 h1 hlo hhi h2]
      exact decodeRune_three b b1 b2 t2 h0 h1 hlo hhi h2
    · intro _; rfl
  · refine ⟨[b1, b2, b3], t, rfl, ?_, ?_, ?_, ?_⟩
    · rw [decodeRune_four b b1 b2 b3 t h0 h1 hlo hhi h2 h3]; rfl
    · rw [decodeRune_four b b1 b2 b3 t h0 h1 hlo hhi h2 h3]
      exact encodeRune_four b b1 b2 b3 h0 h1 hlo hhi h2 h3
    · intro t2
      rw [decodeRune_four b b1 b2 b3 t h0 h1 hlo hhi h2 h3]
      exact decodeRune_four b b1 b2 b3 t2 h0 h1 hlo hhi h2 h3
    · rw [decodeRune_four b b1 b2 b3 t h0 h1 hlo hhi h2 h3]
      intro h
      exfalso
      simp only at h
      have hlo2 : b = 0xF0 ∨ 0xF1 ≤ b := by omega
      omega


/-! ## JSON strings: decoding what the encoder wrote -/

theorem parseStringBody_safe (b f : Nat) (tail : Bytes) (hb : b < 0x80)
    (hs : htmlSafe b = true) :
    parseStringBody (f + 1) (b :: tail)
      = (parseStringBody f tail).map (fun p => (b :: p.1, p.2)) := by
  have h : 0x20 ≤ b ∧ b ≠ 0x22 ∧ b ≠ 0x5C := by
    simp [htmlSafe] at hs
    omega
  simp only [parseStringBody]
  rw [if_neg h.2.1, if_neg h.2.2, if_neg (by omega), if_pos hb]

theorem parseStringBody_escapeAscii (b f : Nat) (tail : Bytes) (hb : b < 0x80)
    (hs : htmlSafe b = false) :
    parseStringBody (f + 1) (escapeAscii b ++ tail)
      = (parseStringBody f tail).map (fun p => (b :: p.1, p.2)) := by
  interval_cases b <;> first
    | (exfalso; revert hs; decide)
    | simp [escapeAscii, hexDigit, parseStringBody, hex4, hexVal, simpleEscape, encodeRune]

theorem escapeAscii_length (b : Nat) : 2 ≤ (escapeAscii b).length := by
  unfold escapeAscii
  split_ifs <;> simp

theorem parseStringBody_multi (b f : Nat) (tail : Bytes) (hb : 0x80 ≤ b) :
    parseStringBody (f + 1) (b :: tail)
      = (parseStringBody f ((b :: tail).drop (decodeRune (b :: tail)).2)).map
          (fun p => (encodeRune (decodeRune (b :: tail)).1 ++ p.1, p.2)) := by
  simp only [parseStringBody]
  rw [if_neg (by omega), if_neg (by omega), if_neg (by omega), if_neg (by omega)]

theorem parseStringBody_separator (c f : Nat) (tail : Bytes) (hc : c = 0x2028 ∨ c = 0x2029) :
    parseStringBody (f + 1) ((ascii "\\u202" ++ [hexDigit (c % 16)]) ++ tail)
      = (parseStringBody f tail).map (fun p => (encodeRune c ++ p.1, p.2)) := by
  rcases hc with rfl | rfl <;>
    simp [ascii, hexDigit, parseStringBody, hex4, hexVal]


theorem parseStringBody_appendStringLoop (n : Nat) :
    ∀ (K rest : Bytes) (f : Nat), K.length ≤ n → utf8ValidFuel n K = true →
      (appendStringLoop n K).length < f →
      parseStringBody f (appendStringLoop n K ++ 0x22 :: rest) = some (K, rest) := by
  induction n with
  | zero =>
    intro K rest f hlen _ hf
    have hK : K = [] := List.length_eq_zero.mp (Nat.le_zero.mp hlen)
    subst hK
    obtain ⟨f', rfl⟩ : ∃ f', f = f' + 1 := ⟨f - 1, by omega⟩
    simp [appendStringLoop, parseStringBody]
  | succ n ih =>
    intro K rest f hlen hvalid hf
    obtain ⟨f', rfl⟩ : ∃ f', f = f' + 1 := ⟨f - 1, by omega⟩
    cases K with
    | nil => simp [appendStringLoop, parseStringBody]
    | cons b K' =>
      have hlen' : K'.length ≤ n := by simpa using hlen
      simp only [appendStringLoop] at hf ⊢
      simp only [utf8ValidFuel] at hvalid
      by_cases hb : b < 0x80
      · have hd : decodeRune (b :: K') = (b, 1) := by simp [decodeRune, hb]
        rw [hd] at hvalid
        have hv' : utf8ValidFuel n K' = true := by
          have hne : ¬(b = RuneError ∧ 1 = 1) := by
            simp only [RuneError]; omega
          rw [if_neg hne] at hvalid
          simpa using hvalid
        rw [if_pos hb] at hf ⊢
        by_cases hs : htmlSafe b = true
        · rw [if_pos hs] at hf ⊢
          have hf2 : (appendStringLoop n K').length < f' := by
            simp only [List.length_append, List.length_singleton] at hf; omega
          rw [List.append_assoc, List.singleton_append, parseStringBody_safe b f' _ hb hs,
            ih K' rest f' hlen' hv' hf2]
          rfl
        · have hs' : htmlSafe b = false := by simpa using hs
          rw [if_neg hs] at hf ⊢
          have hf2 : (appendStringLoop n K').length < f' := by
            have := escapeAscii_length b
            simp only [List.length_append] at hf; omega
          rw [List.append_assoc, parseStringBody_escapeAscii b f' _ hb hs',
            ih K' rest f' hlen' hv' hf2]
          rfl
      · have hb' : 0x80 ≤ b := by omega
        rw [if_neg hb] at hf ⊢
        by_cases hbad : (decodeRune (b :: K')).1 = RuneError ∧ (decodeRune (b :: K')).2 = 1
        · simp [hbad] at hvalid
        · rw [if_neg hbad] at hvalid
          obtain ⟨bs, tail, hK', hsize, henc, hdec, hsep⟩ := valid_rune b K' hb' hbad
          have hdrop : (b :: K').drop (decodeRune (b :: K')).2 = tail := by
            rw [hsize, hK']; simp
          have htake : (b :: K').take (decodeRune (b :: K')).2 = b :: bs := by
            rw [hsize, hK']; simp
          rw [hdrop] at hvalid
          have hlen2 : tail.length ≤ n := by
            rw [hK'] at hlen'; simp only [List.length_append] at hlen'; omega
          rw [if_neg hbad] at hf ⊢
          rw [hdrop] at hf ⊢
          by_cases hsp : (decodeRune (b :: K')).1 = 0x2028 ∨ (decodeRune (b :: K')).1 = 0x2029
          · rw [if_pos hsp] at hf ⊢
            have hf2 : (appendStringLoop n tail).length < f' := by
              simp only [List.length_append, List.length_singleton] at hf; omega
            rw [List.append_assoc, parseStringBody_separator _ f' _ hsp,
              ih tail rest f' hlen2 hvalid hf2, henc, hK']
            rfl
          · rw [if_neg hsp] at hf ⊢
            rw [htake] at hf ⊢
            have hf2 : (appendStringLoop n tail).length < f' := by
              simp only [List.length_append, List.length_cons] at hf; omega
            rw [List.append_assoc, List.cons_append, parseStringBody_multi b f' _ hb',
              hdec, hsize]
            have hd2 : (b :: (bs ++ (appendStringLoop n tail ++ 0x22 :: rest))).drop (bs.length + 1)
                = appendStringLoop n tail ++ 0x22 :: rest := by simp
            rw [hd2, ih tail rest f' hlen2 hvalid hf2, henc, hK']
            rfl

/-- A string literal written by `appendString` is read back by `parseString`
as the string itself, provided the string is valid UTF-8. -/
theorem parseString_appendString (K rest : Bytes) (hvalid : utf8Valid K = true) :
    parseString (appendStringLoop K.length K ++ 0x22 :: rest) = some (K, rest) := by
  unfold parseString
  apply parseStringBody_appendStringLoop K.length K rest _ (Nat.le_refl _) hvalid
  simp


/-! ## The metadata token: decoding what `SetupNewDisk` encoded -/

theorem marshal_metadataToken (K : Bytes) :
    jsonMarshalToken (metadataToken K)
      = Except.ok (0x7B :: 0x22 :: (appendStringLoop (ascii "type").length (ascii "type")
          ++ 0x22 :: 0x3A :: 0x22 :: (appendStringLoop (ascii "user").length (ascii "user")
          ++ 0x22 :: 0x2C :: 0x22
            :: (appendStringLoop (ascii "keyslots").length (ascii "keyslots")
          ++ 0x22 :: 0x3A :: 0x5B :: 0x5D :: 0x2C :: 0x22
            :: (appendStringLoop (ascii "user_data").length (ascii "user_data")
          ++ 0x22 :: 0x3A :: 0x7B :: 0x22
            :: (appendStringLoop (ascii "metadata").length (ascii "metadata")
          ++ 0x22 :: 0x3A :: 0x22 :: (appendStringLoop K.length K
          ++ 0x22 :: 0x7D :: [0x7D]))))))) := by
  simp only [jsonMarshalToken, metadataToken, appendString, encodeStringSlice, encodeStringMap,
    sortByKey, insertByKey, commaSep, List.foldr, List.map, List.append_assoc, List.cons_append,
    List.nil_append, List.singleton_append]

theorem parse_metadataToken (K : Bytes) (hvalid : utf8Valid K = true) (n : Nat) :
    parseValue (n + 1 + 1 + 1 + 1 + 1 + 1 + 1) 0
      (0x7B :: 0x22 :: (appendStringLoop (ascii "type").length (ascii "type")
          ++ 0x22 :: 0x3A :: 0x22 :: (appendStringLoop (ascii "user").length (ascii "user")
          ++ 0x22 :: 0x2C :: 0x22
            :: (appendStringLoop (ascii "keyslots").length (ascii "keyslots")
          ++ 0x22 :: 0x3A :: 0x5B :: 0x5D :: 0x2C :: 0x22
            :: (appendStringLoop (ascii "user_data").length (ascii "user_data")
          ++ 0x22 :: 0x3A :: 0x7B :: 0x22
            :: (appendStringLoop (ascii "metadata").length (ascii "metadata")
          ++ 0x22 :: 0x3A :: 0x22 :: (appendStringLoop K.length K
          ++ 0x22 :: 0x7D :: [0x7D])))))))
      = some (JValue.object
          [(ascii "type", JValue.string (ascii "user")),
           (ascii "keyslots", JValue.array []),
           (ascii "user_data", JValue.object [(ascii "metadata", JValue.string K)])], []) := by
  have h1 : utf8Valid (ascii "type") = true := by decide
  have h2 : utf8Valid (ascii "user") = true := by decide
  have h3 : utf8Valid (ascii "keyslots") = true := by decide
  have h4 : utf8Valid (ascii "user_data") = true := by decide
  have h5 : utf8Valid (ascii "metadata") = true := by decide
  simp [parseValue, parseMembers, parseElements, skipWs, isJsonSpace, maxNestingDepth,
    parseString_appendString _ _ h1, parseString_appendString _ _ h2,
    parseString_appendString _ _ h3, parseString_appendString _ _ h4,
    parseString_appendString _ _ h5, parseString_appendString _ _ hvalid]


theorem jsonUnmarshalToken_marshal (K data : Bytes) (hvalid : utf8Valid K = true)
    (hdata : jsonMarshalToken (metadataToken K) = Except.ok data) :
    jsonUnmarshalToken data Token.zero = Except.ok (metadataToken K) := by
  rw [marshal_metadataToken] at hdata
  injection hdata with hdata
  have hparse : parseJSON data
      = some (JValue.object
          [(ascii "type", JValue.string (ascii "user")),
           (ascii "keyslots", JValue.array []),
           (ascii "user_data", JValue.object [(ascii "metadata", JValue.string K)])]) := by
    obtain ⟨m, hm⟩ : ∃ m, data.length + 1 = m + 1 + 1 + 1 + 1 + 1 + 1 + 1 :=
      ⟨data.length - 6, by
        have : 6 ≤ data.length := by
          rw [← hdata]; simp only [List.length_cons, List.length_append]; omega
        omega⟩
    unfold parseJSON
    rw [hm, ← hdata]
    have hskip : ∀ t : Bytes, skipWs (0x7B :: t) = 0x7B :: t := by
      intro t; simp [skipWs, isJsonSpace]
    rw [hskip, parse_metadataToken K hvalid m]
    rfl
  have hf1 : lookupField (ascii "type") = some TokenField.type := by decide
  have hf2 : lookupField (ascii "keyslots") = some TokenField.keyslots := by decide
  have hf3 : lookupField (ascii "user_data") = some TokenField.userData := by decide
  unfold jsonUnmarshalToken
  rw [hparse]
  simp [storeMembers, storeField, storeType, storeKeyslots, storeUserData, hf1, hf2, hf3,
    decodeStrings, decodeMap, mapSet, Token.zero, metadataToken, Except.map]

theorem ascii_utf8ValidFuel (n : Nat) :
    ∀ K : Bytes, K.length ≤ n → (∀ c ∈ K, c < 0x80) → utf8ValidFuel n K = true := by
  induction n with
  | zero =>
    intro K hlen _
    have hK : K = [] := List.length_eq_zero.mp (Nat.le_zero.mp hlen)
    subst hK
    rfl
  | succ n ih =>
    intro K hlen hK
    cases K with
    | nil => rfl
    | cons b K' =>
      have hb : b < 0x80 := hK b (List.mem_cons_self _ _)
      have hd : decodeRune (b :: K') = (b, 1) := by simp [decodeRune, hb]
      simp only [utf8ValidFuel, hd]
      rw [if_neg (by simp only [RuneError]; omega)]
      exact ih K' (by simpa using hlen) (fun c hc => hK c (List.mem_cons_of_mem _ hc))

/-- A well-formed key (68 characters of the base64 alphabet) is valid UTF-8. -/
theorem wellFormedKey_utf8Valid (K : Bytes) (h : WellFormedKey K) : utf8Valid K = true := by
  apply ascii_utf8ValidFuel K.length K (Nat.le_refl _)
  intro c hc
  have hall : ∀ x ∈ keyAlphabet, x < 0x80 := by decide
  exact hall c (h.2 c hc)

theorem SetupNewDisk_imports_token (env : Env)
    (keyFile devicePath passphrase mapperName mapperDevice mountPoint K tokenJSON : Bytes)
    (w : World)
    (hfmt : env.fault w.log (opFormat devicePath passphrase) = none)
    (hopen : env.fault (w.log ++ [opFormat devicePath passphrase])
      (opOpen devicePath mapperName passphrase) = none)
    (hmkfs : env.fault (w.log ++ [opFormat devicePath passphrase,
      opOpen devicePath mapperName passphrase]) (opMkfs mapperDevice) = none)
    (hmount : env.fault (w.log ++ [opFormat devicePath passphrase,
      opOpen devicePath mapperName passphrase, opMkfs mapperDevice,
      Op.mkdirAll mountPoint 0o755]) (opMount mapperDevice mountPoint) = none)
    (hread : (osReadFile env keyFile
      (worldMounted env devicePath passphrase mapperName mapperDevice mountPoint w)).1
        = Except.ok K)
    (hjson : jsonMarshalToken (metadataToken K) = Except.ok tokenJSON) :
    opTokenImport devicePath tokenJSON
      ∈ (SetupNewDisk env keyFile devicePath passphrase mapperName mapperDevice mountPoint
          w).2.log := by
  have hbase : (external env (opTokenImport devicePath tokenJSON)
      (osReadFile env keyFile
        (worldMounted env devicePath passphrase mapperName mapperDevice mountPoint w)).2).2.log
      = w.log ++ [opFormat devicePath passphrase, opOpen devicePath mapperName passphrase,
          opMkfs mapperDevice, Op.mkdirAll mountPoint 0o755, opMount mapperDevice mountPoint,
          Op.readFile keyFile, opTokenImport devicePath tokenJSON] := by
    simp [external, osReadFile, worldMounted_log]
  have hcases : (SetupNewDisk env keyFile devicePath passphrase mapperName mapperDevice
      mountPoint w).2
        = (external env (opTokenImport devicePath tokenJSON)
            (osReadFile env keyFile
              (worldMounted env devicePath passphrase mapperName mapperDevice mountPoint w)).2).2
      ∨ (SetupNewDisk env keyFile devicePath passphrase mapperName mapperDevice
      mountPoint w).2
        = (CleanupMount env mountPoint mapperName
            (external env (opTokenImport devicePath tokenJSON)
              (osReadFile env keyFile
                (worldMounted env devicePath passphrase mapperName mapperDevice mountPoint
                  w)).2).2).2 := by
    simp only [opFormat, opOpen, opMkfs, opMount, List.append_assoc, List.cons_append,
      List.nil_append] at hfmt hopen hmkfs hmount
    simp only [worldMounted, opFormat, opOpen, opMkfs, opMount, opTokenImport, external,
      osMkdirAll, List.append_assoc, List.cons_append, List.nil_append] at hread ⊢
    simp only [SetupNewDisk, execRun, external, errOf, osMkdirAll, hfmt, hopen, hmkfs, hmount,
      hread, hjson, List.append_assoc, List.cons_append, List.nil_append]
    split
    · exact Or.inr rfl
    · exact Or.inl rfl
  rcases hcases with h | h
  · rw [h, hbase]; simp
  · rw [h, CleanupMount_log, hbase]; simp


/-- The encoder copies a string of ASCII bytes of `htmlSafeSet` unchanged. -/
theorem appendStringLoop_plain (n : Nat) :
    ∀ s : Bytes, s.length ≤ n → (∀ c ∈ s, c < 0x80 ∧ htmlSafe c = true) →
      appendStringLoop n s = s := by
  induction n with
  | zero =>
    intro s hs _
    have : s = [] := List.length_eq_zero.mp (Nat.le_zero.mp hs)
    subst this
    rfl
  | succ n ih =>
    intro s hs h
    cases s with
    | nil => rfl
    | cons b rest =>
      obtain ⟨hb, hsafe⟩ := h b (List.mem_cons_self _ _)
      simp only [appendStringLoop, if_pos hb, hsafe, if_true]
      rw [ih rest (by simpa using hs) (fun c hc => h c (List.mem_cons_of_mem _ hc))]
      rfl

/-- The token of a key the listener accepts is written without any escape. -/
theorem marshal_key_token (K tokenJSON : Bytes) (hkey : matchKeyPattern K = true)
    (hjson : jsonMarshalToken (metadataToken K) = Except.ok tokenJSON) :
    tokenJSON
      = ascii "\x7b\"type\":\"user\",\"keyslots\":[],\"user_data\":\x7b\"metadata\":\"" ++ K
          ++ ascii "\"\x7d\x7d" := by
  have hwf := (matchKeyPattern_iff K).mp hkey
  have hall : ∀ x ∈ keyAlphabet, x < 0x80 ∧ htmlSafe x = true := by decide
  have hK : appendStringLoop K.length K = K :=
    appendStringLoop_plain K.length K (Nat.le_refl _) (fun c hc => hall c (hwf.2 c hc))
  have h1 : appendStringLoop (ascii "type").length (ascii "type") = ascii "type" := by decide
  have h2 : appendStringLoop (ascii "user").length (ascii "user") = ascii "user" := by decide
  have h3 : appendStringLoop (ascii "keyslots").length (ascii "keyslots") = ascii "keyslots" := by
    decide
  have h4 : appendStringLoop (ascii "user_data").length (ascii "user_data")
      = ascii "user_data" := by decide
  have h5 : appendStringLoop (ascii "metadata").length (ascii "metadata") = ascii "metadata" := by
    decide
  have hpre : ascii "\x7b\"type\":\"user\",\"keyslots\":[],\"user_data\":\x7b\"metadata\":\""
      = [123, 34, 116, 121, 112, 101, 34, 58, 34, 117, 115, 101, 114, 34, 44, 34, 107, 101, 121, 115, 108, 111, 116, 115, 34, 58, 91, 93, 44, 34, 117, 115, 101, 114, 95, 100, 97, 116, 97, 34, 58, 123, 34, 109, 101, 116, 97, 100, 97, 116, 97, 34, 58, 34] := by
    decide
  have hpost : ascii "\"\x7d\x7d" = [34, 125, 125] := by decide
  have a1 : ascii "type" = [116, 121, 112, 101] := by decide
  have a2 : ascii "user" = [117, 115, 101, 114] := by decide
  have a3 : ascii "keyslots" = [107, 101, 121, 115, 108, 111, 116, 115] := by decide
  have a4 : ascii "user_data" = [117, 115, 101, 114, 95, 100, 97, 116, 97] := by decide
  have a5 : ascii "metadata" = [109, 101, 116, 97, 100, 97, 116, 97] := by decide
  rw [marshal_metadataToken, h1, h2, h3, h4, h5, hK] at hjson
  rw [hpre, hpost, ← Except.ok.inj hjson, a1, a2, a3, a4, a5]
  simp only [List.cons_append, List.nil_append, List.append_assoc]

/-- The round trip of the metadata token for a key file holding valid UTF-8:
the token `SetupNewDisk` imports, printed back by the export, gives
`tryFindKey` the contents of the key file. -/
theorem token_roundtrip_utf8 (env1 env2 : Env) (w1 w2 : World)
    (keyFile devicePath passphrase mapperName mapperDevice mountPoint K tokenJSON : Bytes)
    (hvalid : utf8Valid K = true)
    (hfmt : env1.fault w1.log (opFormat devicePath passphrase) = none)
    (hopen : env1.fault (w1.log ++ [opFormat devicePath passphrase])
      (opOpen devicePath mapperName passphrase) = none)
    (hmkfs : env1.fault (w1.log ++ [opFormat devicePath passphrase,
      opOpen devicePath mapperName passphrase]) (opMkfs mapperDevice) = none)
    (hmount : env1.fault (w1.log ++ [opFormat devicePath passphrase,
      opOpen devicePath mapperName passphrase, opMkfs mapperDevice,
      Op.mkdirAll mountPoint 0o755]) (opMount mapperDevice mountPoint) = none)
    (hread : (osReadFile env1 keyFile
      (worldMounted env1 devicePath passphrase mapperName mapperDevice mountPoint w1)).1
        = Except.ok K)
    (hjson : jsonMarshalToken (metadataToken K) = Except.ok tokenJSON)
    (hprobe : env2.fault w2.log (opIsLuks devicePath) = none)
    (hexport : env2.fault (w2.log ++ [opIsLuks devicePath]) (opTokenExport devicePath) = none)
    (hout : env2.output (w2.log ++ [opIsLuks devicePath]) (opTokenExport devicePath)
      = tokenJSON) :
    opTokenImport devicePath tokenJSON
        ∈ (SetupNewDisk env1 keyFile devicePath passphrase mapperName mapperDevice mountPoint
            w1).2.log
    ∧ (tryFindKey env2 devicePath w2).1 = Except.ok K := by
  refine ⟨?_, ?_⟩
  · exact SetupNewDisk_imports_token env1 keyFile devicePath passphrase mapperName mapperDevice
      mountPoint K tokenJSON w1 hfmt hopen hmkfs hmount hread hjson
  · rw [tryFindKey_embedded env2 devicePath w2 (metadataToken K) K hprobe hexport
      (by rw [hout]; exact jsonUnmarshalToken_marshal K tokenJSON hvalid hjson)
      (by simp [metadataToken, mapLookup])]

/-- C4: for every key `K` (a string the listener's pattern accepts: 68
characters of the base64 alphabet), the token that `SetupNewDisk` builds from a
key file holding `K` and feeds to `cryptsetup token import --token-id 1` (the
JSON object with type "user", an empty keyslots list and
`user_data.metadata = K`), when `cryptsetup token export` prints it back to
`tryFindKey` on a later run, yields exactly `K`. -/
theorem metadata_token_roundtrip (env1 env2 : Env) (w1 w2 : World)
    (keyFile devicePath passphrase mapperName mapperDevice mountPoint K tokenJSON : Bytes)
    (hkey : matchKeyPattern K = true)
    (hfmt : env1.fault w1.log (opFormat devicePath passphrase) = none)
    (hopen : env1.fault (w1.log ++ [opFormat devicePath passphrase])
      (opOpen devicePath mapperName passphrase) = none)
    (hmkfs : env1.fault (w1.log ++ [opFormat devicePath passphrase,
      opOpen devicePath mapperName passphrase]) (opMkfs mapperDevice) = none)
    (hmount : env1.fault (w1.log ++ [opFormat devicePath passphrase,
      opOpen devicePath mapperName passphrase, opMkfs mapperDevice,
      Op.mkdirAll mountPoint 0o755]) (opMount mapperDevice mountPoint) = none)
    (hread : (osReadFile env1 keyFile
      (worldMounted env1 devicePath passphrase mapperName mapperDevice mountPoint w1)).1
        = Except.ok K)
    (hjson : jsonMarshalToken (metadataToken K) = Except.ok tokenJSON)
    (hprobe : env2.fault w2.log (opIsLuks devicePath) = none)
    (hexport : env2.fault (w2.log ++ [opIsLuks devicePath]) (opTokenExport devicePath) = none)
    (hout : env2.output (w2.log ++ [opIsLuks devicePath]) (opTokenExport devicePath)
      = tokenJSON) :
    tokenJSON
        = ascii "\x7b\"type\":\"user\",\"keyslots\":[],\"user_data\":\x7b\"metadata\":\"" ++ K
            ++ ascii "\"\x7d\x7d"
    ∧ opTokenImport devicePath tokenJSON
        ∈ (SetupNewDisk env1 keyFile devicePath passphrase mapperName mapperDevice mountPoint
            w1).2.log
    ∧ (tryFindKey env2 devicePath w2).1 = Except.ok K :=
  ⟨marshal_key_token K tokenJSON hkey hjson,
   token_roundtrip_utf8 env1 env2 w1 w2 keyFile devicePath passphrase mapperName mapperDevice
    mountPoint K tokenJSON (wellFormedKey_utf8Valid K ((matchKeyPattern_iff K).mp hkey))
    hfmt hopen hmkfs hmount hread hjson hprobe hexport hout⟩

set_option maxRecDepth 100000 in
theorem metadata_token_roundtrip_witness :
    sampleTokenJSON
        = ascii "\x7b\"type\":\"user\",\"keyslots\":[],\"user_data\":\x7b\"metadata\":\""
            ++ sampleKey ++ ascii "\"\x7d\x7d"
    ∧ opTokenImport (ascii "/dev/sdb") sampleTokenJSON
        ∈ (SetupNewDisk quietEnv (ascii "/etc/root_key") (ascii "/dev/sdb") (ascii "secret")
            (ascii "cryptdisk") (ascii "/dev/mapper/cryptdisk") (ascii "/persistent")
            (bootWorld sampleKey [])).2.log
    ∧ (tryFindKey (resumeEnv sampleTokenJSON) (ascii "/dev/sdb") (bootWorld [] [])).1
        = Except.ok sampleKey :=
  metadata_token_roundtrip quietEnv (resumeEnv sampleTokenJSON) (bootWorld sampleKey [])
    (bootWorld [] []) (ascii "/etc/root_key") (ascii "/dev/sdb") (ascii "secret")
    (ascii "cryptdisk") (ascii "/dev/mapper/cryptdisk") (ascii "/persistent") sampleKey
    sampleTokenJSON
    (by decide) (by decide) (by decide) (by decide) (by decide) (by decide) (by decide)
    (by decide) (by decide) (by decide)


/-! ## The fuel of the rune loop suffices -/

theorem decodeRune_size (b : Nat) (rest : Bytes) :
    1 ≤ (decodeRune (b :: rest)).2 ∧ (decodeRune (b :: rest)).2 ≤ rest.length + 1 := by
  by_cases hb : b < 0x80
  · have hd : decodeRune (b :: rest) = (b, 1) := by simp [decodeRune, hb]
    rw [hd]; simp
  · by_cases hbad : (decodeRune (b :: rest)).1 = RuneError ∧ (decodeRune (b :: rest)).2 = 1
    · rw [hbad.2]; simp
    · obtain ⟨bs, tail, hrest, hsize, -, -, -⟩ := valid_rune b rest (by omega) hbad
      rw [hsize, hrest]
      simp

/-- The runes of a string cover all of it: the fuel of `runes` never runs out
before the end of the string. -/
theorem runeBytes_runesFuel (n : Nat) :
    ∀ s : Bytes, s.length ≤ n → runeBytes (runesFuel n s) = s := by
  induction n with
  | zero =>
    intro s hs
    have : s = [] := List.length_eq_zero.mp (Nat.le_zero.mp hs)
    subst this
    rfl
  | succ n ih =>
    intro s hs
    cases s with
    | nil => rfl
    | cons b rest =>
      have hsz := decodeRune_size b rest
      have hlen : ((b :: rest).drop (decodeRune (b :: rest)).2).length ≤ n := by
        simp only [List.length_drop, List.length_cons] at hs ⊢
        omega
      simp only [runesFuel, runeBytes, List.map_cons, List.flatten_cons]
      have := ih _ hlen
      simp only [runeBytes] at this
      rw [this, List.take_append_drop]


/-! ## `FindLargestDisk`: when no disk is found -/

theorem scanSegments_no_error (segs : List Bytes)
    (h : ∀ seg ∈ segs, seg.length < MaxScanTokenSize) : (scanSegments segs).2 = none := by
  induction segs with
  | nil => rfl
  | cons l rest ih =>
    have hl : ¬ MaxScanTokenSize ≤ l.length := by
      have := h l (List.mem_cons_self _ _); omega
    cases rest with
    | nil =>
      simp only [scanSegments, if_neg hl]
      split <;> rfl
    | cons l2 rest2 =>
      simp only [scanSegments, if_neg hl]
      exact ih (fun seg hseg => h seg (List.mem_cons_of_mem _ hseg))

theorem candidateOf_isCandidateLine (text : Bytes) (c : Bytes × Int)
    (h : candidateOf text = some c) : isCandidateLine text = true := by
  unfold candidateOf at h
  unfold isCandidateLine
  dsimp only at h ⊢
  split at h
  · cases h
  · rename_i h1
    rw [if_neg h1]
    split at h
    · cases h
    · rename_i h2
      rw [if_neg h2]
      split at h
      · assumption
      · cases h

theorem FindLargestDisk_eq (content : Bytes) :
    FindLargestDisk (Except.ok content)
      = match (scanSegments (splitLines content)).2 with
        | some err => Except.error err
        | none =>
          if ((candidates content).foldl selectLarger ([], 0)).1 = [] then
            Except.error (GoError.new "no SCSI disk found")
          else Except.ok ((candidates content).foldl selectLarger ([], 0)).1 := by
  unfold FindLargestDisk
  dsimp only
  rw [foldl_scanStep]
  rfl

/-- C11 (as amended): for a readable partition table none of whose lines
reaches the scanner's limit and whose candidate records (name starts with `sd`
and does not end in a digit) all have a block count that is a decimal integer
between 1 and 2^53 - 1, `FindLargestDisk` fails with the error "no SCSI disk
found" if and only if the table has no candidate record, and whenever at least
one candidate exists it returns a device. -/
theorem FindLargestDisk_not_found (content : Bytes)
    (hlines : ∀ seg ∈ splitLines content, seg.length < MaxScanTokenSize)
    (hcount : ∀ l ∈ partitionLines content, isCandidateLine l = true →
      ∃ c ∈ candidateOf l, 0 < c.2 ∧ c.2 < 2 ^ 53) :
    (FindLargestDisk (Except.ok content) = Except.error (GoError.new "no SCSI disk found")
      ↔ ∀ l ∈ partitionLines content, isCandidateLine l = false)
    ∧ ((∃ l ∈ partitionLines content, isCandidateLine l = true) →
        ∃ dev, FindLargestDisk (Except.ok content) = Except.ok dev) := by
  have hscan := scanSegments_no_error (splitLines content) hlines
  have hmem : ∀ c ∈ candidates content, 0 < c.2 ∧ c.2 < 2 ^ 53 := by
    intro c hc
    obtain ⟨l, hl, hlc⟩ := List.mem_filterMap.mp hc
    obtain ⟨c', hc', hpos⟩ := hcount l hl (candidateOf_isCandidateLine l c hlc)
    rw [Option.mem_def, hlc] at hc'
    cases hc'
    exact hpos
  have hsel := Selected_foldl (candidates content) [] ([], 0)
    (fun c hc => ⟨by have := (hmem c hc).1; omega, (hmem c hc).2⟩) (Or.inl ⟨rfl, by simp⟩)
  rw [List.nil_append] at hsel
  rw [FindLargestDisk_eq, hscan]
  dsimp only
  by_cases hany : ∃ l ∈ partitionLines content, isCandidateLine l = true
  · obtain ⟨l, hl, hcand⟩ := hany
    obtain ⟨c, hc, hpos⟩ := hcount l hl hcand
    have hcmem : c ∈ candidates content :=
      List.mem_filterMap.mpr ⟨l, hl, by rwa [Option.mem_def] at hc⟩
    have hne : ((candidates content).foldl selectLarger ([], 0)).1 ≠ [] := by
      rcases hsel with ⟨-, hle⟩ | ⟨pre, name, blocks, post, -, hst, -, -, -⟩
      · have := hle c hcmem; omega
      · rw [hst]; simp [ascii]
    rw [if_neg hne]
    refine ⟨⟨fun h => (by cases h), fun h => ?_⟩, fun _ => ⟨_, rfl⟩⟩
    rw [h l hl] at hcand
    cases hcand
  · have hnone : candidates content = [] := by
      rw [List.eq_nil_iff_forall_not_mem]
      intro c hc
      obtain ⟨l, hl, hlc⟩ := List.mem_filterMap.mp hc
      exact hany ⟨l, hl, candidateOf_isCandidateLine l c hlc⟩
    rw [hnone]
    refine ⟨⟨fun _ l hl => ?_, fun _ => (by simp)⟩, fun h => absurd h hany⟩
    cases hv : isCandidateLine l with
    | false => rfl
    | true => exact absurd ⟨l, hl, hv⟩ hany

theorem FindLargestDisk_not_found_witness :
    (FindLargestDisk (Except.ok samplePartitions) = Except.error (GoError.new "no SCSI disk found")
      ↔ ∀ l ∈ partitionLines samplePartitions, isCandidateLine l = false)
    ∧ ((∃ l ∈ partitionLines samplePartitions, isCandidateLine l = true) →
        ∃ dev, FindLargestDisk (Except.ok samplePartitions) = Except.ok dev) :=
  FindLargestDisk_not_found samplePartitions (by decide) (by decide)

/-- C11 (counterexample): the table whose only disk `sda` reports 0 blocks has
a candidate record, and `FindLargestDisk` fails on it with "no SCSI disk
found". -/
theorem FindLargestDisk_not_found_counterexample :
    (∃ l ∈ partitionLines emptyDiskPartitions, isCandidateLine l = true)
    ∧ candidates emptyDiskPartitions = [(ascii "sda", 0)]
    ∧ FindLargestDisk (Except.ok emptyDiskPartitions)
        = Except.error (GoError.new "no SCSI disk found") := by
  decide


/-! ## `CheckMounted`: which columns of the mount table match -/

theorem needle_skip (a : Nat) (N X Z : Bytes) (h : a ∉ X) :
    a :: N <:+: X ++ Z ↔ a :: N <:+: Z := by
  induction X with
  | nil => rfl
  | cons x X ih =>
    have hx : a ≠ x := fun e => h (e ▸ List.mem_cons_self _ _)
    have hX : a ∉ X := fun m => h (List.mem_cons_of_mem _ m)
    rw [List.cons_append, List.infix_cons_iff, List.cons_prefix_cons, ih hX]
    constructor
    · rintro (⟨e, -⟩ | h')
      · exact absurd e hx
      · exact h'
    · exact Or.inr

theorem needle_at_sep (a : Nat) (N Z : Bytes) :
    a :: N <:+: a :: Z ↔ N <+: Z ∨ a :: N <:+: Z := by
  rw [List.infix_cons_iff, List.cons_prefix_cons]
  simp

theorem needle_field (sp : Nat) (mp m Y : Bytes) (hmp : sp ∉ mp) (hm : sp ∉ m) :
    mp ++ [sp] <+: m ++ sp :: Y ↔ mp = m := by
  induction mp generalizing m with
  | nil =>
    cases m with
    | nil => simp
    | cons x m =>
      have hx : sp ≠ x := fun e => hm (e ▸ List.mem_cons_self _ _)
      simp [hx]
  | cons y mp ih =>
    have hy : y ≠ sp := fun e => hmp (e ▸ List.mem_cons_self _ _)
    have hmp' : sp ∉ mp := fun h => hmp (List.mem_cons_of_mem _ h)
    cases m with
    | nil => simp [hy]
    | cons x m =>
      have hm' : sp ∉ m := fun h => hm (List.mem_cons_of_mem _ h)
      rw [List.cons_append, List.cons_append, List.cons_prefix_cons, ih m hmp' hm']
      simp

theorem needle_last_field (sp nl : Nat) (mp p Y : Bytes) (hne : sp ≠ nl) (hmp : nl ∉ mp)
    (hp : sp ∉ p) : ¬ (mp ++ [sp] <+: p ++ nl :: Y) := by
  induction mp generalizing p with
  | nil =>
    cases p with
    | nil => simp [hne]
    | cons x p =>
      have hx : sp ≠ x := fun e => hp (e ▸ List.mem_cons_self _ _)
      simp [hx]
  | cons y mp ih =>
    have hy : y ≠ nl := fun e => hmp (e ▸ List.mem_cons_self _ _)
    have hmp' : nl ∉ mp := fun h => hmp (List.mem_cons_of_mem _ h)
    cases p with
    | nil => simp [hy]
    | cons x p =>
      have hp' : sp ∉ p := fun h => hp (List.mem_cons_of_mem _ h)
      rw [List.cons_append, List.cons_append, List.cons_prefix_cons]
      exact fun h => ih p hmp' hp' h.2

theorem line_needle (e : MountEntry) (mp rest : Bytes) (he : e.WellFormed)
    (hmp : fieldClean mp) :
    32 :: (mp ++ [32]) <:+: e.line ++ rest
      ↔ (mp = e.mountPoint ∨ mp = e.fsType ∨ mp = e.options ∨ mp = e.dump)
        ∨ 32 :: (mp ++ [32]) <:+: rest := by
  obtain ⟨hd, hm, hf, ho, hu, hp⟩ := he
  have hline : e.line ++ rest
      = e.device ++ 32 :: (e.mountPoint ++ 32 :: (e.fsType ++ 32 :: (e.options
          ++ 32 :: (e.dump ++ 32 :: (e.pass ++ ([10] ++ rest)))))) := by
    have hs : ascii " " = [32] := rfl
    have hn : ascii "\n" = [10] := rfl
    simp only [MountEntry.line, hs, hn, List.append_assoc, List.cons_append, List.nil_append]
  have hlast := needle_last_field 32 10 mp e.pass rest (by decide) hmp.2 hp.1
  rw [hline, needle_skip 32 _ e.device _ hd.1, needle_at_sep,
    needle_field 32 mp e.mountPoint _ hmp.1 hm.1, needle_skip 32 _ e.mountPoint _ hm.1,
    needle_at_sep, needle_field 32 mp e.fsType _ hmp.1 hf.1, needle_skip 32 _ e.fsType _ hf.1,
    needle_at_sep, needle_field 32 mp e.options _ hmp.1 ho.1, needle_skip 32 _ e.options _ ho.1,
    needle_at_sep, needle_field 32 mp e.dump _ hmp.1 hu.1, needle_skip 32 _ e.dump _ hu.1,
    needle_at_sep, needle_skip 32 _ e.pass _ hp.1, needle_skip 32 _ [10] rest (by decide)]
  simp only [List.cons_append, List.nil_append] at hlast ⊢
  tauto

theorem renderMounts_needle (table : List MountEntry) (mp : Bytes)
    (htable : ∀ e ∈ table, e.WellFormed) (hmp : fieldClean mp) :
    32 :: (mp ++ [32]) <:+: renderMounts table
      ↔ ∃ e ∈ table, mp = e.mountPoint ∨ mp = e.fsType ∨ mp = e.options ∨ mp = e.dump := by
  induction table with
  | nil => simp [renderMounts]
  | cons e es ih =>
    have hcons : renderMounts (e :: es) = e.line ++ renderMounts es := by
      simp [renderMounts]
    rw [hcons, line_needle e mp _ (htable e (List.mem_cons_self _ _)) hmp,
      ih (fun e' h' => htable e' (List.mem_cons_of_mem _ h'))]
    simp

/-- On a well-formed mount table, `CheckMounted` answers true for a string
without space or line feed exactly when the string is the mount-point,
file-system-type, options or dump field of an entry. -/
theorem CheckMounted_columns (env : Env) (mountPoint : Bytes) (w : World)
    (table : List MountEntry)
    (hread : env.fault w.log (Op.readFile (ascii "/proc/mounts")) = none)
    (hfile : w.files (ascii "/proc/mounts") = some (renderMounts table))
    (htable : ∀ e ∈ table, e.WellFormed) (hmp : fieldClean mountPoint) :
    (CheckMounted env mountPoint w).1 = true
      ↔ ∃ e ∈ table, mountPoint = e.mountPoint ∨ mountPoint = e.fsType
          ∨ mountPoint = e.options ∨ mountPoint = e.dump := by
  have hs : ascii " " = [32] := rfl
  have hc : (CheckMounted env mountPoint w).1
      = stringsContains (renderMounts table) (32 :: (mountPoint ++ [32])) := by
    simp [CheckMounted, osReadFile, hread, hfile, hs]
  rw [hc, stringsContains_iff, renderMounts_needle table mountPoint htable hmp]


/-- C12 (as amended): for every well-formed mount table content (no field holds
a space or a line feed) and every mount point string without space or line feed
that is not the file-system-type, options or dump field of an entry,
`CheckMounted` returns true if and only if some entry of the mount table has
that string as its mount-point field; in particular it is not true merely
because the string is the device or the pass field of an entry. -/
theorem CheckMounted_mount_point (env : Env) (mountPoint : Bytes) (w : World)
    (table : List MountEntry)
    (hread : env.fault w.log (Op.readFile (ascii "/proc/mounts")) = none)
    (hfile : w.files (ascii "/proc/mounts") = some (renderMounts table))
    (htable : ∀ e ∈ table, e.WellFormed) (hmp : fieldClean mountPoint)
    (hother : ∀ e ∈ table,
      mountPoint ≠ e.fsType ∧ mountPoint ≠ e.options ∧ mountPoint ≠ e.dump) :
    (CheckMounted env mountPoint w).1 = true ↔ ∃ e ∈ table, e.mountPoint = mountPoint := by
  rw [CheckMounted_columns env mountPoint w table hread hfile htable hmp]
  constructor
  · rintro ⟨e, he, h | h | h | h⟩
    · exact ⟨e, he, h.symm⟩
    · exact absurd h (hother e he).1
    · exact absurd h (hother e he).2.1
    · exact absurd h (hother e he).2.2
  · rintro ⟨e, he, h⟩
    exact ⟨e, he, Or.inl h.symm⟩

set_option maxRecDepth 100000 in
theorem CheckMounted_mount_point_witness :
    ((CheckMounted quietEnv (ascii "/persistent") (mountsWorld diskMounts)).1 = true
      ↔ ∃ e ∈ diskMounts, e.mountPoint = ascii "/persistent")
    ∧ ((CheckMounted quietEnv (ascii "/dev/sda1") (mountsWorld diskMounts)).1 = true
      ↔ ∃ e ∈ diskMounts, e.mountPoint = ascii "/dev/sda1") :=
  ⟨CheckMounted_mount_point quietEnv (ascii "/persistent") (mountsWorld diskMounts) diskMounts
      rfl rfl (by decide) (by decide) (by decide),
   CheckMounted_mount_point quietEnv (ascii "/dev/sda1") (mountsWorld diskMounts) diskMounts
      rfl rfl (by decide) (by decide) (by decide)⟩

set_option maxRecDepth 100000 in
/-- C12 (counterexample): on the table whose entries carry the file system type
`ext4`, `CheckMounted` answers true for the string `ext4`, while no entry has
`ext4` as its mount-point field; likewise for the options `rw,relatime` and the
dump number `0`. -/
theorem CheckMounted_mount_point_counterexample :
    (CheckMounted quietEnv (ascii "ext4") (mountsWorld diskMounts)).1 = true
    ∧ (¬ ∃ e ∈ diskMounts, e.mountPoint = ascii "ext4")
    ∧ (CheckMounted quietEnv (ascii "rw,relatime") (mountsWorld diskMounts)).1 = true
    ∧ (¬ ∃ e ∈ diskMounts, e.mountPoint = ascii "rw,relatime")
    ∧ (CheckMounted quietEnv (ascii "0") (mountsWorld diskMounts)).1 = true
    ∧ (¬ ∃ e ∈ diskMounts, e.mountPoint = ascii "0") := by
  decide

end TdxInit
